import Mathlib

/-!
# swarm-cd: repository synchronizer and stack reconciler

A shallow embedding of `swarmcd/repo.go` (the repository synchronizer:
`newStackRepo`, `stackRepo.pullChanges`, `stackRepo.fetchTag`) together with the
parts of the stack reconciler that `swarmcd/stack_test.go` exercises.

The go-git library is an external collaborator.  Its calls are stateful, so the
embedding passes an abstract world `W` through every call and takes the library
as a record of transition functions on `W`.  Every call made is also written to
a trace, so that the order and the number of the calls can be stated.

Left out: the `log.Debug` calls, which do not bear on any result; `Is` methods
and multiple `Unwrap` in the `errors.Is` walk, which the go-git values
compared here do not have.
-/

namespace SwarmCD

/-! ## Go errors -/

/-- The package-level error values of go-git that the code tests with `errors.Is`. -/
inductive Sentinel
  | ErrRepositoryAlreadyExists
  | NoErrAlreadyUpToDate
deriving DecidableEq, Repr

/-- A Go `error` value: its `Error()` text and, for the `errors.Is` walk, either its
identity as one of the sentinel values (`base`) or the error `Unwrap()` returns
(`wrapped`). -/
inductive GoError
  | base (msg : String) (ident : Option Sentinel)
  | wrapped (msg : String) (inner : GoError)
deriving DecidableEq, Repr

/-- The method `err.Error()`. -/
def GoError.Error : GoError → String
  | .base msg _ => msg
  | .wrapped msg _ => msg

/-- The function `errors.Is(err, target)` for a sentinel target: compare the identity, then
follow `Unwrap()`. -/
def errorsIs : GoError → Sentinel → Bool
  | .base _ ident, target => ident == some target
  | .wrapped _ inner, target => errorsIs inner target

/-- The call `fmt.Errorf(msg)` with a format that has no verb: a new error, no `Unwrap`. -/
def fmtErrorf (msg : String) : GoError := .base msg none

/-- The call `fmt.Errorf(text + "%w", err)`: the message is the formatted text followed by
`err.Error()`, and `Unwrap()` returns `err`. -/
def fmtErrorfW (text : String) (err : GoError) : GoError :=
  .wrapped (text ++ err.Error) err

/-! ## go-git values -/

/-- The type `http.BasicAuth`. -/
structure BasicAuth where
  Username : String
  Password : String
deriving DecidableEq, Repr

/-- A non-nil `*git.Repository`. -/
structure Repository where
  handle : Nat
deriving DecidableEq, Repr

/-- A non-nil `*git.Worktree`. -/
structure Worktree where
  handle : Nat
deriving DecidableEq, Repr

/-- The type `git.CloneOptions`, with the fields the code sets. -/
structure CloneOptions where
  URL : String
  Auth : Option BasicAuth
deriving DecidableEq, Repr

/-- The type `git.CheckoutOptions`, with the fields the code sets. -/
structure CheckoutOptions where
  Branch : String
  Force : Bool
deriving DecidableEq, Repr

/-- The type `git.PullOptions`, with the fields the code sets. -/
structure PullOptions where
  ReferenceName : String
  RemoteName : String
  Auth : Option BasicAuth
deriving DecidableEq, Repr

/-- The type `git.FetchOptions`, with the fields the code sets. -/
structure FetchOptions where
  RemoteName : String
  Auth : Option BasicAuth
  RefSpecs : List String
  Force : Bool
deriving DecidableEq, Repr

/-- The function `plumbing.NewBranchReferenceName`. -/
def NewBranchReferenceName (name : String) : String := "refs/heads/" ++ name

/-- One byte. -/
abbrev Byte := Fin 256

/-- The type `plumbing.Hash`, a `[20]byte`. -/
structure Hash where
  bytes : List Byte
  size : bytes.length = 20
deriving DecidableEq

/-- The constant `hextable` of `encoding/hex`, as its characters. -/
def hextable : List Char := "0123456789abcdef".data

/-- The loop of `hex.Encode`: two characters per byte, `hextable[v>>4]` then
`hextable[v&0x0f]`. -/
def hexEncode : List Byte → List Char
  | [] => []
  | v :: rest =>
    hextable.getD (v.val >>> 4) '?' :: hextable.getD (v.val &&& 0x0f) '?' :: hexEncode rest

/-- The method `Hash.String()`, which is `hex.EncodeToString(h[:])`. -/
def Hash.String (h : Hash) : String := ⟨hexEncode h.bytes⟩

/-- The type `plumbing.Reference`, as far as the code reads it. -/
structure Reference where
  target : Hash
deriving DecidableEq

/-- The method `ref.Hash()`. -/
def Reference.Hash (ref : Reference) : Hash := ref.target

/-- The slice expression `s[:n]`: out of range when `n` exceeds the length.  Only used on
the output of `Hash.String`, which is ASCII, so byte and character offsets agree. -/
def sliceTo (s : String) (n : Nat) : Option String :=
  if n ≤ s.length then some ⟨s.data.take n⟩ else none

/-! ## Calls, traces and programs -/

/-- What a call of a Go function ends in: it returns, or it stops in a run-time panic. -/
inductive Outcome (α : Type)
  | returned (a : α)
  | panicked
deriving DecidableEq, Repr

/-- One operation on the resources of a `stackRepo`: a call into go-git, or a call on the
mutex. -/
inductive Step
  | PlainClone (path : String) (isBare : Bool) (o : CloneOptions)
  | PlainOpen (path : String)
  | Worktree (r : Repository)
  | Checkout (wt : SwarmCD.Worktree) (o : CheckoutOptions)
  | Pull (wt : SwarmCD.Worktree) (o : PullOptions)
  | Fetch (r : Repository) (o : FetchOptions)
  | Head (r : Repository)
  | Lock
  | Unlock
deriving DecidableEq, Repr

/-- The go-git library as transitions of a world `W`: each call returns its Go result and
the world it leaves behind. -/
structure Git (W : Type) where
  PlainClone : String → Bool → CloneOptions → W → Except GoError Repository × W
  PlainOpen : String → W → Except GoError Repository × W
  Worktree : Repository → W → Except GoError SwarmCD.Worktree × W
  Checkout : SwarmCD.Worktree → CheckoutOptions → W → Option GoError × W
  Pull : SwarmCD.Worktree → PullOptions → W → Option GoError × W
  Fetch : Repository → FetchOptions → W → Option GoError × W
  Head : Repository → W → Except GoError Reference × W

/-- The result of running a program: the world left behind, the operations performed in
order, and the outcome. -/
structure Run (W α : Type) where
  world : W
  trace : List Step
  out : Outcome α

/-- A program over the world `W`. -/
def Prog (W α : Type) : Type := W → Run W α

/-- Return without touching the world. -/
def Prog.pure {W α : Type} (a : α) : Prog W α := fun w => ⟨w, [], .returned a⟩

/-- Sequencing: the traces are concatenated and a panic stops the program. -/
def Prog.bind {W α β : Type} (p : Prog W α) (f : α → Prog W β) : Prog W β := fun w =>
  match p w with
  | ⟨w1, t1, .returned a⟩ =>
    match f a w1 with
    | ⟨w2, t2, o⟩ => ⟨w2, t1 ++ t2, o⟩
  | ⟨w1, t1, .panicked⟩ => ⟨w1, t1, .panicked⟩

/-- A run-time panic. -/
def Prog.panic {W α : Type} : Prog W α := fun w => ⟨w, [], .panicked⟩

instance {W : Type} : Monad (Prog W) where
  pure := Prog.pure
  bind := Prog.bind

/-- Perform one library call: record the step, apply the transition. -/
def Prog.call {W α : Type} (s : Step) (f : W → α × W) : Prog W α := fun w =>
  ⟨(f w).2, [s], .returned (f w).1⟩

/-! ## repo.go -/

/-- The type `sync.Mutex`; its zero value is unlocked. -/
structure Mutex where
  locked : Bool
deriving DecidableEq, Repr

/-- The struct `stackRepo`. `gitRepoObject` is a pointer and may be nil. -/
structure stackRepo where
  name : String
  lock : Mutex
  url : String
  gitRepoObject : Option Repository
  auth : Option BasicAuth
  path : String
deriving DecidableEq, Repr

/-- The function `newStackRepo` of repo.go. -/
def newStackRepo {W : Type} (git : Git W) (name path url : String) (auth : Option BasicAuth) :
    Prog W (Option stackRepo × Option GoError) := do
  let cloneOptions : CloneOptions := { URL := url, Auth := auth }
  let built (repo : Repository) : Option stackRepo × Option GoError :=
    (some { name := name, path := path, url := url, auth := auth,
            lock := { locked := false }, gitRepoObject := some repo }, none)
  match ← Prog.call (.PlainClone path false cloneOptions) (git.PlainClone path false cloneOptions) with
  | .error err =>
    if errorsIs err .ErrRepositoryAlreadyExists then
      match ← Prog.call (.PlainOpen path) (git.PlainOpen path) with
      | .error err =>
        pure (none, some (fmtErrorfW ("could not open existing repo " ++ name ++ ": ") err))
      | .ok repo => pure (built repo)
    else
      let err := if err.Error = "authentication required" then
        fmtErrorf "authentication failed" else err
      pure (none, some (fmtErrorfW ("could not clone repo " ++ name ++ ": ") err))
  | .ok repo => pure (built repo)

/-- The tail shared by `pullChanges` and `fetchTag`: `ref.Hash().String()[:8], nil`. -/
def shortHash {W : Type} (ref : Reference) : Prog W (String × Option GoError) :=
  match sliceTo ref.Hash.String 8 with
  | some revision => pure (revision, none)
  | none => Prog.panic

/-- The method `stackRepo.pullChanges` of repo.go. -/
def stackRepo.pullChanges {W : Type} (git : Git W) (repo : stackRepo) (branch : String) :
    Prog W (String × Option GoError) := do
  match repo.gitRepoObject with
  | none => Prog.panic
  | some gitRepoObject =>
  match ← Prog.call (.Worktree gitRepoObject) (git.Worktree gitRepoObject) with
  | .error err =>
    pure ("", some (fmtErrorfW ("could not get " ++ repo.name ++ " repo worktree: ") err))
  | .ok workTree =>
  let checkoutOptions : CheckoutOptions :=
    { Branch := "refs/remotes/origin/" ++ branch, Force := true }
  match ← Prog.call (.Checkout workTree checkoutOptions) (git.Checkout workTree checkoutOptions) with
  | some err =>
    pure ("", some (fmtErrorfW
      ("could not checkout branch " ++ branch ++ " in " ++ repo.name ++ ": ") err))
  | none =>
  let pullOptions : PullOptions :=
    { ReferenceName := NewBranchReferenceName branch, RemoteName := "origin", Auth := repo.auth }
  let pulled ← Prog.call (.Pull workTree pullOptions) (git.Pull workTree pullOptions)
  match pulled.filter (fun err => !errorsIs err .NoErrAlreadyUpToDate) with
  | some err =>
    let err := if err.Error = "authentication required" then
      fmtErrorf "authentication failed" else err
    pure ("", some (fmtErrorfW
      ("could not pull " ++ branch ++ " branch in " ++ repo.name ++ " repo: ") err))
  | none =>
  match ← Prog.call (.Head gitRepoObject) (git.Head gitRepoObject) with
  | .error err =>
    pure ("", some (fmtErrorfW
      ("could not get HEAD commit hash of " ++ branch ++ " branch in " ++ repo.name ++ " repo: ")
      err))
  | .ok ref => shortHash ref

/-- The method `stackRepo.fetchTag` of repo.go. -/
def stackRepo.fetchTag {W : Type} (git : Git W) (repo : stackRepo) (tag : String) :
    Prog W (String × Option GoError) := do
  match repo.gitRepoObject with
  | none => Prog.panic
  | some gitRepoObject =>
  match ← Prog.call (.Worktree gitRepoObject) (git.Worktree gitRepoObject) with
  | .error err =>
    pure ("", some (fmtErrorfW ("could not get " ++ repo.name ++ " repo worktree: ") err))
  | .ok workTree =>
  let fetchOptions : FetchOptions :=
    { RemoteName := "origin", Auth := repo.auth,
      RefSpecs := ["+refs/tags/" ++ tag ++ ":refs/tags/" ++ tag], Force := true }
  let fetched ← Prog.call (.Fetch gitRepoObject fetchOptions) (git.Fetch gitRepoObject fetchOptions)
  match fetched.filter (fun err => !errorsIs err .NoErrAlreadyUpToDate) with
  | some err =>
    let err := if err.Error = "authentication required" then
      fmtErrorf "authentication failed" else err
    pure ("", some (fmtErrorfW ("could not fetch tag " ++ tag ++ " in " ++ repo.name ++ " repo: ") err))
  | none =>
  let tagRef : String := "refs/tags/" ++ tag
  let checkoutOptions : CheckoutOptions := { Branch := tagRef, Force := true }
  match ← Prog.call (.Checkout workTree checkoutOptions) (git.Checkout workTree checkoutOptions) with
  | some err =>
    pure ("", some (fmtErrorfW ("could not checkout tag " ++ tag ++ " in " ++ repo.name ++ ": ") err))
  | none =>
  match ← Prog.call (.Head gitRepoObject) (git.Head gitRepoObject) with
  | .error err =>
    pure ("", some (fmtErrorfW
      ("could not get HEAD commit hash of tag " ++ tag ++ " in " ++ repo.name ++ " repo: ") err))
  | .ok ref => shortHash ref

/-! ## The stack reconciler

`stack.go` is not among the sources; `stack_test.go` shows the signatures. The definitions
below follow sections 3 and 4.2 of the specification. -/

/-- Modelled from the spec: the parsed definition, a value of the shape
`String | Number | Bool | Sequence | Mapping` (section 9); a mapping keeps its entries in
declared order. Missing from the sources: the result type of `parseStackString`. -/
inductive Value
  | str (s : String)
  | num (n : Int)
  | bool (b : Bool)
  | seq (items : List Value)
  | map (entries : List (String × Value))

/-- Modelled from the spec: the fallible field accessor of section 9, the value under `key`
when the value is a mapping that has the key. -/
def Value.field (v : Value) (key : String) : Option Value :=
  match v with
  | .map entries => (entries.find? (fun e => e.1 == key)).map (fun e => e.2)
  | _ => none

/-- Modelled from the spec: an entry is marked external when it carries `external: true`
(section 3, Managed Object Reference; the flag defaults to false). -/
def isExternal (entry : Value) : Bool :=
  match entry.field "external" with
  | some (.bool b) => b
  | _ => false

/-- Modelled from the spec: the optional `file` attribute of an entry, a path text. -/
def fileOf (entry : Value) : Option String :=
  match entry.field "file" with
  | some (.str f) => some f
  | _ => none

/-- Modelled from the spec: the directory containing the definition file, the path without
its last component (empty for a path with no `/`). -/
def dirOf (definitionPath : String) : String :=
  ⟨(((definitionPath.data.reverse).dropWhile (fun c => c != '/')).drop 1).reverse⟩

/-- Modelled from the spec: the path of `file` relative to the directory `dir`. -/
def joinPath (dir file : String) : String :=
  if dir = "" then file else dir ++ "/" ++ file

/-- Modelled from the spec: the scan of discover-secrets over the entries in declared order,
appending to the result. An external entry and an entry without `file` contribute nothing. -/
def discoverLoop (dir : String) : List (String × Value) → List String → List String
  | [], sopsFiles => sopsFiles
  | (_, entry) :: rest, sopsFiles =>
    if isExternal entry then discoverLoop dir rest sopsFiles
    else
      match fileOf entry with
      | some file => discoverLoop dir rest (sopsFiles ++ [joinPath dir file])
      | none => discoverLoop dir rest sopsFiles

/-- Modelled from the spec: `discoverSecrets(definition, definitionPath)` of stack.go (absent),
section 4.2. It scans the top-level `secrets` mapping; without that key the result is empty.
The spec names no condition under which it fails. -/
def discoverSecrets (definition : Value) (definitionPath : String) :
    Except GoError (List String) :=
  match definition.field "secrets" with
  | some (.map entries) => .ok (discoverLoop (dirOf definitionPath) entries [])
  | _ => .ok []

/-- The type `slog.Attr` as the tests read it: `Key` and `Value.String()`. -/
structure Attr where
  Key : String
  Value : String
deriving DecidableEq, Repr

/-- Modelled from the spec: the struct `swarmStack` of stack.go (absent), section 3: name,
owning repository, branch, tag, path of the definition file, and three pass-through
configuration values (the last three arguments of `newSwarmStack` in stack_test.go). -/
structure swarmStack where
  name : String
  repo : stackRepo
  branch : String
  tag : String
  composePath : String
  sopsFiles : Option (List String)
  valuesFile : String
  discoverSecrets : Bool

/-- Modelled from the spec: `newSwarmStack` of stack.go (absent); branch and tag are stored
verbatim, with no defaulting (section 8). -/
def newSwarmStack (name : String) (repo : stackRepo) (branch tag composePath : String)
    (sopsFiles : Option (List String)) (valuesFile : String) (discoverSecrets : Bool) :
    swarmStack :=
  { name := name, repo := repo, branch := branch, tag := tag, composePath := composePath,
    sopsFiles := sopsFiles, valuesFile := valuesFile, discoverSecrets := discoverSecrets }

/-- Modelled from the spec: `swarmStack.refAttr` of stack.go (absent), section 4.2, resolve ref
attribute: the tag when one is configured, else the branch. -/
def swarmStack.refAttr (s : swarmStack) : Attr :=
  if s.tag ≠ "" then { Key := "tag", Value := s.tag }
  else { Key := "branch", Value := s.branch }

/-! ## The stack reconciler: rotation of managed objects -/

/-- Modelled from the spec: the collaborators of rotate-objects (sections 4.2 and 6), absent
from the sources: the encryption backend (`decrypt`, from a file path to the plaintext), the
content-derived identity (`identity`, from the plaintext to a digest) and the live platform
(`liveMatches`, whether the object of this kind and versioned name already exists). -/
structure Backend where
  decrypt : String → Except GoError String
  identity : String → Except GoError String
  liveMatches : String → String → Bool

/-- Modelled from the spec: the operations rotate-objects can perform on its collaborators. -/
inductive RotateOp
  | Decrypt (path : String)
  | Identity (name : String)
  | Lookup (kind versioned : String)
  | Create (kind versioned : String)
deriving DecidableEq, Repr

/-- Modelled from the spec: the result of rotate-objects: the objects mapping as the call
leaves it, the operations performed in order, and the error returned. -/
structure Rotation where
  objects : List (String × Value)
  ops : List RotateOp
  err : Option GoError

/-- Modelled from the spec: set the attribute `key` of a mapping, replacing the value when the
key is present and adding the entry at the end otherwise. -/
def Value.setField (v : Value) (key : String) (x : Value) : Value :=
  match v with
  | .map entries =>
    if entries.any (fun e => e.1 == key) then
      .map (entries.map (fun e => if e.1 == key then (key, x) else e))
    else .map (entries ++ [(key, x)])
  | other => other

/-- Modelled from the spec: the first phase of rotate-objects (section 4.2, compute then
commit). For each entry not marked external, in declared order: the kind must be `secrets` or
`configs`, the plaintext of its file is recovered and its identity computed; the versioned
name is the object name, `-`, and the digest. An unknown kind or a failing decrypt or identity
aborts with the object name attached. External entries are skipped, as are entries without
`file`. -/
def rotatePlan (be : Backend) (dir kind : String) :
    List (String × Value) → List RotateOp → List (String × String) →
      List RotateOp × Except GoError (List (String × String))
  | [], ops, plan => (ops, .ok plan)
  | (name, entry) :: rest, ops, plan =>
    if isExternal entry then rotatePlan be dir kind rest ops plan
    else if kind ≠ "secrets" ∧ kind ≠ "configs" then
      (ops, .error (fmtErrorf ("unknown object kind " ++ kind ++ " of object " ++ name)))
    else
      match fileOf entry with
      | none => rotatePlan be dir kind rest ops plan
      | some file =>
        match be.decrypt (joinPath dir file) with
        | .error err =>
          (ops ++ [.Decrypt (joinPath dir file)],
            .error (fmtErrorfW ("could not decrypt object " ++ name ++ ": ") err))
        | .ok plaintext =>
          match be.identity plaintext with
          | .error err =>
            (ops ++ [.Decrypt (joinPath dir file), .Identity name],
              .error (fmtErrorfW ("could not compute identity of object " ++ name ++ ": ") err))
          | .ok digest =>
            rotatePlan be dir kind rest
              (ops ++ [.Decrypt (joinPath dir file), .Identity name])
              (plan ++ [(name, name ++ "-" ++ digest)])

/-- Modelled from the spec: the second phase of rotate-objects. For each planned object, look
the versioned object up on the platform; when it is not there, create it and point the
reference of the object (its `name` attribute) at it. -/
def rotateCommit (be : Backend) (kind : String) :
    List (String × String) → List (String × Value) → List RotateOp → Rotation
  | [], objects, ops => { objects := objects, ops := ops, err := none }
  | (name, versioned) :: rest, objects, ops =>
    if be.liveMatches kind versioned then
      rotateCommit be kind rest objects (ops ++ [.Lookup kind versioned])
    else
      rotateCommit be kind rest
        (objects.map (fun e =>
          if e.1 == name then (e.1, e.2.setField "name" (.str versioned)) else e))
        (ops ++ [.Lookup kind versioned, .Create kind versioned])

/-- Modelled from the spec: `swarmStack.rotateObjects(objects, kind)` of stack.go (absent),
section 4.2: compute for every entry, then commit; a failure in the first phase leaves the
objects as they were. -/
def swarmStack.rotateObjects (s : swarmStack) (be : Backend) (objects : List (String × Value))
    (kind : String) : Rotation :=
  match rotatePlan be (dirOf s.composePath) kind objects [] [] with
  | (ops, .error err) => { objects := objects, ops := ops, err := some err }
  | (ops, .ok plan) => rotateCommit be kind plan objects ops

/-! ## Statement vocabulary -/

/-- The text `needle` occurs in the text `s`. -/
def Contains (s needle : String) : Prop := needle.data <:+: s.data

instance (s needle : String) : Decidable (Contains s needle) := by
  unfold Contains; infer_instance

/-- A lowercase hexadecimal digit: `0`-`9` or `a`-`f`. -/
def isLowerHexDigit (c : Char) : Bool :=
  ('0' ≤ c && c ≤ '9') || ('a' ≤ c && c ≤ 'f')

/-- The git steps of `pullChanges` in source order, for the worktree `wt` the first step
yields. -/
def pullChangesSteps (g : Repository) (wt : Worktree) (branch : String)
    (auth : Option BasicAuth) : List Step :=
  [.Worktree g,
   .Checkout wt { Branch := "refs/remotes/origin/" ++ branch, Force := true },
   .Pull wt { ReferenceName := NewBranchReferenceName branch, RemoteName := "origin", Auth := auth },
   .Head g]

/-- The git steps of `fetchTag` in source order, for the worktree `wt` the first step
yields. -/
def fetchTagSteps (g : Repository) (wt : Worktree) (tag : String)
    (auth : Option BasicAuth) : List Step :=
  [.Worktree g,
   .Fetch g { RemoteName := "origin", Auth := auth,
              RefSpecs := ["+refs/tags/" ++ tag ++ ":refs/tags/" ++ tag], Force := true },
   .Checkout wt { Branch := "refs/tags/" ++ tag, Force := true },
   .Head g]

/-- A pull or fetch result that lets the call go on: no error, or the already-up-to-date
value. -/
def absorbed (r : Option GoError) : Prop :=
  ∀ e, r = some e → errorsIs e .NoErrAlreadyUpToDate = true

/-- The rewrite of lines 42-44, 88-90 and 122-124 of repo.go. -/
def rewriteAuth (err : GoError) : GoError :=
  if err.Error = "authentication required" then fmtErrorf "authentication failed" else err

/-- The error a call site returns for rejected credentials: the new error
`authentication failed` behind the context text of the site. -/
def authenticationFailure (context : String) : GoError :=
  fmtErrorfW context (fmtErrorf "authentication failed")

/-- The entries of the top-level `secrets` mapping of a definition; none when the key is
absent or is not a mapping. -/
def secretEntries (definition : Value) : List (String × Value) :=
  match definition.field "secrets" with
  | some (.map entries) => entries
  | _ => []

/-! ## Example values -/

/-- A library whose every call answers with a fixed result and counts the call in the
world. -/
def scripted (clone opened : Except GoError Repository) (wt : Except GoError Worktree)
    (co pull fetch : Option GoError) (head : Except GoError Reference) : Git Nat where
  PlainClone := fun _ _ _ w => (clone, w + 1)
  PlainOpen := fun _ w => (opened, w + 1)
  Worktree := fun _ w => (wt, w + 1)
  Checkout := fun _ _ w => (co, w + 1)
  Pull := fun _ _ w => (pull, w + 1)
  Fetch := fun _ _ w => (fetch, w + 1)
  Head := fun _ w => (head, w + 1)

/-- The value `transport.ErrAuthenticationRequired` of go-git. -/
def ErrAuthenticationRequired : GoError := .base "authentication required" none

/-- The value `git.NoErrAlreadyUpToDate` of go-git. -/
def NoErrAlreadyUpToDate : GoError := .base "already up-to-date" (some .NoErrAlreadyUpToDate)

/-- The value `git.ErrRepositoryAlreadyExists` of go-git. -/
def ErrRepositoryAlreadyExists : GoError :=
  .base "repository already exists" (some .ErrRepositoryAlreadyExists)

/-- A commit hash used in the examples: `0123456789abcdef0123...`. -/
def sampleHash : Hash :=
  ⟨[0x01, 0x23, 0x45, 0x67, 0x89, 0xab, 0xcd, 0xef, 0x01, 0x23,
    0x45, 0x67, 0x89, 0xab, 0xcd, 0xef, 0x01, 0x23, 0x45, 0x67], by decide⟩

/-- A repository value used in the examples. -/
def sampleRepo : stackRepo :=
  { name := "infra", lock := { locked := false }, url := "https://example.org/infra.git",
    gitRepoObject := some ⟨1⟩, auth := none, path := "repos/infra" }

/-- A library in which the path already holds a repository: the clone reports
`ErrRepositoryAlreadyExists` and the open yields repository 7. -/
def gitExisting : Git Nat :=
  scripted (.error ErrRepositoryAlreadyExists) (.ok ⟨7⟩) (.ok ⟨1⟩) none none none
    (.ok ⟨sampleHash⟩)

/-- A library whose remote rejects the credentials: clone, pull and fetch report
`authentication required`. -/
def gitRejecting : Git Nat :=
  scripted (.error ErrAuthenticationRequired) (.ok ⟨7⟩) (.ok ⟨1⟩) none
    (some ErrAuthenticationRequired) (some ErrAuthenticationRequired) (.ok ⟨sampleHash⟩)

/-- A library whose remote has nothing new: pull and fetch report `NoErrAlreadyUpToDate`,
every other call succeeds and HEAD is `sampleHash`. -/
def gitUpToDate : Git Nat :=
  scripted (.ok ⟨1⟩) (.ok ⟨1⟩) (.ok ⟨1⟩) none (some NoErrAlreadyUpToDate)
    (some NoErrAlreadyUpToDate) (.ok ⟨sampleHash⟩)

/-- A library in which every call succeeds and HEAD is `sampleHash`. -/
def gitHealthy : Git Nat :=
  scripted (.ok ⟨1⟩) (.ok ⟨1⟩) (.ok ⟨1⟩) none none none (.ok ⟨sampleHash⟩)

/-- A library whose repository is bare: `Worktree` fails, as go-git does, with
`worktree not available in a bare repository`. -/
def gitBare : Git Nat :=
  scripted (.ok ⟨1⟩) (.ok ⟨1⟩) (.error (.base "worktree not available in a bare repository" none))
    none none none (.ok ⟨sampleHash⟩)

/-- The repository value of stack_test.go: no git object. -/
def testRepo : stackRepo :=
  { name := "test", path := "test", url := "", auth := none, lock := { locked := false },
    gitRepoObject := none }

/-- The parsed definition of `TestSecretDiscovery`. -/
def testDefinition : Value :=
  .map [("services", .map [("my-service", .map [("image", .str "my-image"),
          ("secrets", .seq [.str "my-secret", .str "my-external-secret"])])]),
        ("secrets", .map [("my-secret", .map [("file", .str "secrets/secret.yaml")]),
          ("my-external-secret", .map [("external", .bool true)])])]

/-- The definition of section 8: `secrets: {a: {file: x.yaml}, b: {external: true}}`. -/
def specDefinition : Value :=
  .map [("secrets", .map [("a", .map [("file", .str "x.yaml")]),
          ("b", .map [("external", .bool true)])])]

/-- A backend that cannot be reached: every decrypt and every identity computation fails. -/
def unreachableBackend : Backend :=
  { decrypt := fun _ => .error (fmtErrorf "backend unreachable"),
    identity := fun _ => .error (fmtErrorf "backend unreachable"),
    liveMatches := fun _ _ => false }

/-- A backend used in the examples: decrypts every file to `plain` and takes `d1` as the
identity; the platform holds no object. -/
def sampleBackend : Backend :=
  { decrypt := fun _ => .ok "plain", identity := fun _ => .ok "d1",
    liveMatches := fun _ _ => false }

/-! ## Lemmas on the hash text -/

theorem hexEncode_length (bs : List Byte) : (hexEncode bs).length = 2 * bs.length := by
  induction bs with
  | nil => rfl
  | cons v rest ih => simp [hexEncode, ih]; omega

theorem hextable_getD_mem (i : Nat) (hi : i < 16) : hextable.getD i '?' ∈ hextable := by
  interval_cases i <;> decide

theorem hexEncode_mem (bs : List Byte) : ∀ c ∈ hexEncode bs, c ∈ hextable := by
  induction bs with
  | nil => simp [hexEncode]
  | cons v rest ih =>
    intro c hc
    simp only [hexEncode, List.mem_cons] at hc
    rcases hc with rfl | rfl | hc
    · apply hextable_getD_mem
      have := v.isLt
      rw [Nat.shiftRight_eq_div_pow]; omega
    · apply hextable_getD_mem
      have : v.val &&& 0x0f ≤ 0x0f := Nat.and_le_right
      omega
    · exact ih c hc

theorem hextable_lower : ∀ c ∈ hextable, isLowerHexDigit c = true := by decide

theorem Hash.String_length (h : Hash) : h.String.length = 40 := by
  simp [Hash.String, hexEncode_length, h.size]

theorem sliceTo_hash (h : Hash) : sliceTo h.String 8 = some ⟨h.String.data.take 8⟩ := by
  have h8 : 8 ≤ h.String.length := by rw [Hash.String_length]; omega
  simp [sliceTo, h8]

theorem shortHash_run {W : Type} (ref : Reference) (w : W) :
    shortHash ref w = ⟨w, [], .returned (⟨ref.Hash.String.data.take 8⟩, none)⟩ := by
  simp [shortHash, sliceTo_hash, pure, Prog.pure]

theorem revision_shape (h : Hash) :
    (String.mk (h.String.data.take 8)).length = 8 ∧
      ∀ c ∈ (String.mk (h.String.data.take 8)).data, isLowerHexDigit c = true := by
  constructor
  · have := Hash.String_length h
    simp only [String.length] at this
    simp [String.length, this]
  · intro c hc
    exact hextable_lower c (hexEncode_mem h.bytes c (List.mem_of_mem_take hc))

/-! ## The paths through `pullChanges` -/

theorem pullChanges_nil {W : Type} (git : Git W) (repo : stackRepo) (branch : String) (w : W)
    (hg : repo.gitRepoObject = none) :
    repo.pullChanges git branch w = ⟨w, [], .panicked⟩ := by
  simp [stackRepo.pullChanges, Prog.panic, hg]

theorem pullChanges_worktree_fails {W : Type} (git : Git W) (repo : stackRepo) (branch : String)
    (w w1 : W) (g : Repository) (e : GoError)
    (hg : repo.gitRepoObject = some g) (hw : git.Worktree g w = (.error e, w1)) :
    repo.pullChanges git branch w =
      ⟨w1, (pullChangesSteps g ⟨0⟩ branch repo.auth).take 1,
        .returned ("", some (fmtErrorfW ("could not get " ++ repo.name ++ " repo worktree: ") e))⟩ := by
  simp [stackRepo.pullChanges, bind, Prog.bind, Prog.call, pure, Prog.pure, hg, hw,
    pullChangesSteps]

theorem pullChanges_checkout_fails {W : Type} (git : Git W) (repo : stackRepo) (branch : String)
    (w w1 w2 : W) (g : Repository) (wt : Worktree) (e : GoError)
    (hg : repo.gitRepoObject = some g) (hw : git.Worktree g w = (.ok wt, w1))
    (hc : git.Checkout wt ⟨"refs/remotes/origin/" ++ branch, true⟩ w1 = (some e, w2)) :
    repo.pullChanges git branch w =
      ⟨w2, (pullChangesSteps g wt branch repo.auth).take 2,
        .returned ("", some (fmtErrorfW
          ("could not checkout branch " ++ branch ++ " in " ++ repo.name ++ ": ") e))⟩ := by
  simp [stackRepo.pullChanges, bind, Prog.bind, Prog.call, pure, Prog.pure, hg, hw, hc,
    pullChangesSteps]

theorem pullChanges_pull_fails {W : Type} (git : Git W) (repo : stackRepo) (branch : String)
    (w w1 w2 w3 : W) (g : Repository) (wt : Worktree) (e : GoError)
    (hg : repo.gitRepoObject = some g) (hw : git.Worktree g w = (.ok wt, w1))
    (hc : git.Checkout wt ⟨"refs/remotes/origin/" ++ branch, true⟩ w1 = (none, w2))
    (hp : git.Pull wt ⟨NewBranchReferenceName branch, "origin", repo.auth⟩ w2 = (some e, w3))
    (he : errorsIs e .NoErrAlreadyUpToDate = false) :
    repo.pullChanges git branch w =
      ⟨w3, (pullChangesSteps g wt branch repo.auth).take 3,
        .returned ("", some (fmtErrorfW
          ("could not pull " ++ branch ++ " branch in " ++ repo.name ++ " repo: ")
          (rewriteAuth e)))⟩ := by
  simp [stackRepo.pullChanges, bind, Prog.bind, Prog.call, pure, Prog.pure, hg, hw, hc, hp, he,
    pullChangesSteps, Option.filter, rewriteAuth]

theorem pullChanges_head_fails {W : Type} (git : Git W) (repo : stackRepo) (branch : String)
    (w w1 w2 w3 w4 : W) (g : Repository) (wt : Worktree) (r : Option GoError) (e : GoError)
    (hg : repo.gitRepoObject = some g) (hw : git.Worktree g w = (.ok wt, w1))
    (hc : git.Checkout wt ⟨"refs/remotes/origin/" ++ branch, true⟩ w1 = (none, w2))
    (hp : git.Pull wt ⟨NewBranchReferenceName branch, "origin", repo.auth⟩ w2 = (r, w3))
    (hr : absorbed r) (hh : git.Head g w3 = (.error e, w4)) :
    repo.pullChanges git branch w =
      ⟨w4, pullChangesSteps g wt branch repo.auth,
        .returned ("", some (fmtErrorfW
          ("could not get HEAD commit hash of " ++ branch ++ " branch in " ++ repo.name ++
            " repo: ") e))⟩ := by
  cases r with
  | none =>
    simp [stackRepo.pullChanges, bind, Prog.bind, Prog.call, pure, Prog.pure, hg, hw, hc, hp, hh,
      pullChangesSteps, Option.filter]
  | some e0 =>
    have he := hr e0 rfl
    simp [stackRepo.pullChanges, bind, Prog.bind, Prog.call, pure, Prog.pure, hg, hw, hc, hp, hh,
      he, pullChangesSteps, Option.filter]

theorem pullChanges_succeeds {W : Type} (git : Git W) (repo : stackRepo) (branch : String)
    (w w1 w2 w3 w4 : W) (g : Repository) (wt : Worktree) (r : Option GoError) (ref : Reference)
    (hg : repo.gitRepoObject = some g) (hw : git.Worktree g w = (.ok wt, w1))
    (hc : git.Checkout wt ⟨"refs/remotes/origin/" ++ branch, true⟩ w1 = (none, w2))
    (hp : git.Pull wt ⟨NewBranchReferenceName branch, "origin", repo.auth⟩ w2 = (r, w3))
    (hr : absorbed r) (hh : git.Head g w3 = (.ok ref, w4)) :
    repo.pullChanges git branch w =
      ⟨w4, pullChangesSteps g wt branch repo.auth,
        .returned (⟨ref.Hash.String.data.take 8⟩, none)⟩ := by
  cases r with
  | none =>
    simp [stackRepo.pullChanges, bind, Prog.bind, Prog.call, pure, Prog.pure, hg, hw, hc, hp, hh,
      pullChangesSteps, Option.filter, shortHash_run]
  | some e0 =>
    have he := hr e0 rfl
    simp [stackRepo.pullChanges, bind, Prog.bind, Prog.call, pure, Prog.pure, hg, hw, hc, hp, hh,
      he, pullChangesSteps, Option.filter, shortHash_run]

theorem pullChanges_cases {W : Type} (git : Git W) (repo : stackRepo) (branch : String) (w : W)
    (g : Repository) (hg : repo.gitRepoObject = some g) :
    (∃ e w1, git.Worktree g w = (.error e, w1) ∧
      repo.pullChanges git branch w =
        ⟨w1, (pullChangesSteps g ⟨0⟩ branch repo.auth).take 1,
          .returned ("", some (fmtErrorfW ("could not get " ++ repo.name ++ " repo worktree: ") e))⟩) ∨
    (∃ wt w1 e w2, git.Worktree g w = (.ok wt, w1) ∧
      git.Checkout wt ⟨"refs/remotes/origin/" ++ branch, true⟩ w1 = (some e, w2) ∧
      repo.pullChanges git branch w =
        ⟨w2, (pullChangesSteps g wt branch repo.auth).take 2,
          .returned ("", some (fmtErrorfW
            ("could not checkout branch " ++ branch ++ " in " ++ repo.name ++ ": ") e))⟩) ∨
    (∃ wt w1 w2 e w3, git.Worktree g w = (.ok wt, w1) ∧
      git.Checkout wt ⟨"refs/remotes/origin/" ++ branch, true⟩ w1 = (none, w2) ∧
      git.Pull wt ⟨NewBranchReferenceName branch, "origin", repo.auth⟩ w2 = (some e, w3) ∧
      errorsIs e .NoErrAlreadyUpToDate = false ∧
      repo.pullChanges git branch w =
        ⟨w3, (pullChangesSteps g wt branch repo.auth).take 3,
          .returned ("", some (fmtErrorfW
            ("could not pull " ++ branch ++ " branch in " ++ repo.name ++ " repo: ")
            (rewriteAuth e)))⟩) ∨
    (∃ wt w1 w2 r w3 e w4, git.Worktree g w = (.ok wt, w1) ∧
      git.Checkout wt ⟨"refs/remotes/origin/" ++ branch, true⟩ w1 = (none, w2) ∧
      git.Pull wt ⟨NewBranchReferenceName branch, "origin", repo.auth⟩ w2 = (r, w3) ∧
      absorbed r ∧ git.Head g w3 = (.error e, w4) ∧
      repo.pullChanges git branch w =
        ⟨w4, pullChangesSteps g wt branch repo.auth,
          .returned ("", some (fmtErrorfW
            ("could not get HEAD commit hash of " ++ branch ++ " branch in " ++ repo.name ++
              " repo: ") e))⟩) ∨
    (∃ wt w1 w2 r w3 ref w4, git.Worktree g w = (.ok wt, w1) ∧
      git.Checkout wt ⟨"refs/remotes/origin/" ++ branch, true⟩ w1 = (none, w2) ∧
      git.Pull wt ⟨NewBranchReferenceName branch, "origin", repo.auth⟩ w2 = (r, w3) ∧
      absorbed r ∧ git.Head g w3 = (.ok ref, w4) ∧
      repo.pullChanges git branch w =
        ⟨w4, pullChangesSteps g wt branch repo.auth,
          .returned (⟨ref.Hash.String.data.take 8⟩, none)⟩) := by
  rcases hw : git.Worktree g w with ⟨_ | wt, w1⟩
  · exact Or.inl ⟨_, _, rfl, pullChanges_worktree_fails git repo branch w w1 g _ hg hw⟩
  rcases hc : git.Checkout wt ⟨"refs/remotes/origin/" ++ branch, true⟩ w1 with ⟨_ | e, w2⟩
  swap
  · exact Or.inr (Or.inl ⟨_, _, _, _, rfl, hc,
      pullChanges_checkout_fails git repo branch w w1 w2 g wt e hg hw hc⟩)
  rcases hp : git.Pull wt ⟨NewBranchReferenceName branch, "origin", repo.auth⟩ w2 with ⟨r, w3⟩
  by_cases hr : absorbed r
  · rcases hh : git.Head g w3 with ⟨e | ref, w4⟩
    · exact Or.inr (Or.inr (Or.inr (Or.inl ⟨_, _, _, _, _, _, _, rfl, hc, hp, hr, hh,
        pullChanges_head_fails git repo branch w w1 w2 w3 w4 g wt r e hg hw hc hp hr hh⟩)))
    · exact Or.inr (Or.inr (Or.inr (Or.inr ⟨_, _, _, _, _, _, _, rfl, hc, hp, hr, hh,
        pullChanges_succeeds git repo branch w w1 w2 w3 w4 g wt r ref hg hw hc hp hr hh⟩)))
  · simp only [absorbed, not_forall] at hr
    obtain ⟨e, hre, he⟩ := hr
    subst hre
    have he : errorsIs e .NoErrAlreadyUpToDate = false := by simpa using he
    exact Or.inr (Or.inr (Or.inl ⟨_, _, _, _, _, rfl, hc, hp, he,
      pullChanges_pull_fails git repo branch w w1 w2 w3 g wt e hg hw hc hp he⟩))

/-! ## The paths through `fetchTag` -/

theorem fetchTag_nil {W : Type} (git : Git W) (repo : stackRepo) (tag : String) (w : W)
    (hg : repo.gitRepoObject = none) :
    repo.fetchTag git tag w = ⟨w, [], .panicked⟩ := by
  simp [stackRepo.fetchTag, Prog.panic, hg]

theorem fetchTag_worktree_fails {W : Type} (git : Git W) (repo : stackRepo) (tag : String)
    (w w1 : W) (g : Repository) (e : GoError)
    (hg : repo.gitRepoObject = some g) (hw : git.Worktree g w = (.error e, w1)) :
    repo.fetchTag git tag w =
      ⟨w1, (fetchTagSteps g ⟨0⟩ tag repo.auth).take 1,
        .returned ("", some (fmtErrorfW ("could not get " ++ repo.name ++ " repo worktree: ") e))⟩ := by
  simp [stackRepo.fetchTag, bind, Prog.bind, Prog.call, pure, Prog.pure, hg, hw, fetchTagSteps]

theorem fetchTag_fetch_fails {W : Type} (git : Git W) (repo : stackRepo) (tag : String)
    (w w1 w2 : W) (g : Repository) (wt : Worktree) (e : GoError)
    (hg : repo.gitRepoObject = some g) (hw : git.Worktree g w = (.ok wt, w1))
    (hf : git.Fetch g ⟨"origin", repo.auth, ["+refs/tags/" ++ tag ++ ":refs/tags/" ++ tag], true⟩ w1
      = (some e, w2))
    (he : errorsIs e .NoErrAlreadyUpToDate = false) :
    repo.fetchTag git tag w =
      ⟨w2, (fetchTagSteps g wt tag repo.auth).take 2,
        .returned ("", some (fmtErrorfW
          ("could not fetch tag " ++ tag ++ " in " ++ repo.name ++ " repo: ") (rewriteAuth e)))⟩ := by
  simp [stackRepo.fetchTag, bind, Prog.bind, Prog.call, pure, Prog.pure, hg, hw, hf, he,
    fetchTagSteps, Option.filter, rewriteAuth]

theorem fetchTag_checkout_fails {W : Type} (git : Git W) (repo : stackRepo) (tag : String)
    (w w1 w2 w3 : W) (g : Repository) (wt : Worktree) (r : Option GoError) (e : GoError)
    (hg : repo.gitRepoObject = some g) (hw : git.Worktree g w = (.ok wt, w1))
    (hf : git.Fetch g ⟨"origin", repo.auth, ["+refs/tags/" ++ tag ++ ":refs/tags/" ++ tag], true⟩ w1
      = (r, w2))
    (hr : absorbed r)
    (hc : git.Checkout wt ⟨"refs/tags/" ++ tag, true⟩ w2 = (some e, w3)) :
    repo.fetchTag git tag w =
      ⟨w3, (fetchTagSteps g wt tag repo.auth).take 3,
        .returned ("", some (fmtErrorfW
          ("could not checkout tag " ++ tag ++ " in " ++ repo.name ++ ": ") e))⟩ := by
  cases r with
  | none =>
    simp [stackRepo.fetchTag, bind, Prog.bind, Prog.call, pure, Prog.pure, hg, hw, hf, hc,
      fetchTagSteps, Option.filter]
  | some e0 =>
    have he := hr e0 rfl
    simp [stackRepo.fetchTag, bind, Prog.bind, Prog.call, pure, Prog.pure, hg, hw, hf, hc, he,
      fetchTagSteps, Option.filter]

theorem fetchTag_head_fails {W : Type} (git : Git W) (repo : stackRepo) (tag : String)
    (w w1 w2 w3 w4 : W) (g : Repository) (wt : Worktree) (r : Option GoError) (e : GoError)
    (hg : repo.gitRepoObject = some g) (hw : git.Worktree g w = (.ok wt, w1))
    (hf : git.Fetch g ⟨"origin", repo.auth, ["+refs/tags/" ++ tag ++ ":refs/tags/" ++ tag], true⟩ w1
      = (r, w2))
    (hr : absorbed r)
    (hc : git.Checkout wt ⟨"refs/tags/" ++ tag, true⟩ w2 = (none, w3))
    (hh : git.Head g w3 = (.error e, w4)) :
    repo.fetchTag git tag w =
      ⟨w4, fetchTagSteps g wt tag repo.auth,
        .returned ("", some (fmtErrorfW
          ("could not get HEAD commit hash of tag " ++ tag ++ " in " ++ repo.name ++ " repo: ")
          e))⟩ := by
  cases r with
  | none =>
    simp [stackRepo.fetchTag, bind, Prog.bind, Prog.call, pure, Prog.pure, hg, hw, hf, hc, hh,
      fetchTagSteps, Option.filter]
  | some e0 =>
    have he := hr e0 rfl
    simp [stackRepo.fetchTag, bind, Prog.bind, Prog.call, pure, Prog.pure, hg, hw, hf, hc, hh, he,
      fetchTagSteps, Option.filter]

theorem fetchTag_succeeds {W : Type} (git : Git W) (repo : stackRepo) (tag : String)
    (w w1 w2 w3 w4 : W) (g : Repository) (wt : Worktree) (r : Option GoError) (ref : Reference)
    (hg : repo.gitRepoObject = some g) (hw : git.Worktree g w = (.ok wt, w1))
    (hf : git.Fetch g ⟨"origin", repo.auth, ["+refs/tags/" ++ tag ++ ":refs/tags/" ++ tag], true⟩ w1
      = (r, w2))
    (hr : absorbed r)
    (hc : git.Checkout wt ⟨"refs/tags/" ++ tag, true⟩ w2 = (none, w3))
    (hh : git.Head g w3 = (.ok ref, w4)) :
    repo.fetchTag git tag w =
      ⟨w4, fetchTagSteps g wt tag repo.auth,
        .returned (⟨ref.Hash.String.data.take 8⟩, none)⟩ := by
  cases r with
  | none =>
    simp [stackRepo.fetchTag, bind, Prog.bind, Prog.call, pure, Prog.pure, hg, hw, hf, hc, hh,
      fetchTagSteps, Option.filter, shortHash_run]
  | some e0 =>
    have he := hr e0 rfl
    simp [stackRepo.fetchTag, bind, Prog.bind, Prog.call, pure, Prog.pure, hg, hw, hf, hc, hh, he,
      fetchTagSteps, Option.filter, shortHash_run]

theorem fetchTag_cases {W : Type} (git : Git W) (repo : stackRepo) (tag : String) (w : W)
    (g : Repository) (hg : repo.gitRepoObject = some g) :
    (∃ e w1, git.Worktree g w = (.error e, w1) ∧
      repo.fetchTag git tag w =
        ⟨w1, (fetchTagSteps g ⟨0⟩ tag repo.auth).take 1,
          .returned ("", some (fmtErrorfW ("could not get " ++ repo.name ++ " repo worktree: ") e))⟩) ∨
    (∃ wt w1 e w2, git.Worktree g w = (.ok wt, w1) ∧
      git.Fetch g ⟨"origin", repo.auth, ["+refs/tags/" ++ tag ++ ":refs/tags/" ++ tag], true⟩ w1
        = (some e, w2) ∧
      errorsIs e .NoErrAlreadyUpToDate = false ∧
      repo.fetchTag git tag w =
        ⟨w2, (fetchTagSteps g wt tag repo.auth).take 2,
          .returned ("", some (fmtErrorfW
            ("could not fetch tag " ++ tag ++ " in " ++ repo.name ++ " repo: ")
            (rewriteAuth e)))⟩) ∨
    (∃ wt w1 r w2 e w3, git.Worktree g w = (.ok wt, w1) ∧
      git.Fetch g ⟨"origin", repo.auth, ["+refs/tags/" ++ tag ++ ":refs/tags/" ++ tag], true⟩ w1
        = (r, w2) ∧
      absorbed r ∧ git.Checkout wt ⟨"refs/tags/" ++ tag, true⟩ w2 = (some e, w3) ∧
      repo.fetchTag git tag w =
        ⟨w3, (fetchTagSteps g wt tag repo.auth).take 3,
          .returned ("", some (fmtErrorfW
            ("could not checkout tag " ++ tag ++ " in " ++ repo.name ++ ": ") e))⟩) ∨
    (∃ wt w1 r w2 w3 e w4, git.Worktree g w = (.ok wt, w1) ∧
      git.Fetch g ⟨"origin", repo.auth, ["+refs/tags/" ++ tag ++ ":refs/tags/" ++ tag], true⟩ w1
        = (r, w2) ∧
      absorbed r ∧ git.Checkout wt ⟨"refs/tags/" ++ tag, true⟩ w2 = (none, w3) ∧
      git.Head g w3 = (.error e, w4) ∧
      repo.fetchTag git tag w =
        ⟨w4, fetchTagSteps g wt tag repo.auth,
          .returned ("", some (fmtErrorfW
            ("could not get HEAD commit hash of tag " ++ tag ++ " in " ++ repo.name ++ " repo: ")
            e))⟩) ∨
    (∃ wt w1 r w2 w3 ref w4, git.Worktree g w = (.ok wt, w1) ∧
      git.Fetch g ⟨"origin", repo.auth, ["+refs/tags/" ++ tag ++ ":refs/tags/" ++ tag], true⟩ w1
        = (r, w2) ∧
      absorbed r ∧ git.Checkout wt ⟨"refs/tags/" ++ tag, true⟩ w2 = (none, w3) ∧
      git.Head g w3 = (.ok ref, w4) ∧
      repo.fetchTag git tag w =
        ⟨w4, fetchTagSteps g wt tag repo.auth,
          .returned (⟨ref.Hash.String.data.take 8⟩, none)⟩) := by
  rcases hw : git.Worktree g w with ⟨_ | wt, w1⟩
  · exact Or.inl ⟨_, _, rfl, fetchTag_worktree_fails git repo tag w w1 g _ hg hw⟩
  rcases hf : git.Fetch g
    ⟨"origin", repo.auth, ["+refs/tags/" ++ tag ++ ":refs/tags/" ++ tag], true⟩ w1 with ⟨r, w2⟩
  by_cases hr : absorbed r
  · rcases hc : git.Checkout wt ⟨"refs/tags/" ++ tag, true⟩ w2 with ⟨_ | e, w3⟩
    swap
    · exact Or.inr (Or.inr (Or.inl ⟨_, _, _, _, _, _, rfl, hf, hr, hc,
        fetchTag_checkout_fails git repo tag w w1 w2 w3 g wt r e hg hw hf hr hc⟩))
    rcases hh : git.Head g w3 with ⟨e | ref, w4⟩
    · exact Or.inr (Or.inr (Or.inr (Or.inl ⟨_, _, _, _, _, _, _, rfl, hf, hr, hc, hh,
        fetchTag_head_fails git repo tag w w1 w2 w3 w4 g wt r e hg hw hf hr hc hh⟩)))
    · exact Or.inr (Or.inr (Or.inr (Or.inr ⟨_, _, _, _, _, _, _, rfl, hf, hr, hc, hh,
        fetchTag_succeeds git repo tag w w1 w2 w3 w4 g wt r ref hg hw hf hr hc hh⟩)))
  · simp only [absorbed, not_forall] at hr
    obtain ⟨e, hre, he⟩ := hr
    subst hre
    have he : errorsIs e .NoErrAlreadyUpToDate = false := by simpa using he
    exact Or.inr (Or.inl ⟨_, _, _, _, rfl, hf, he,
      fetchTag_fetch_fails git repo tag w w1 w2 g wt e hg hw hf he⟩)

/-! ## The paths through `newStackRepo` -/

theorem newStackRepo_cloned {W : Type} (git : Git W) (name path url : String)
    (auth : Option BasicAuth) (w w1 : W) (g : Repository)
    (hclone : git.PlainClone path false ⟨url, auth⟩ w = (.ok g, w1)) :
    newStackRepo git name path url auth w =
      ⟨w1, [.PlainClone path false ⟨url, auth⟩],
        .returned (some ⟨name, ⟨false⟩, url, some g, auth, path⟩, none)⟩ := by
  simp [newStackRepo, bind, Prog.bind, Prog.call, pure, Prog.pure, hclone]

theorem newStackRepo_clone_fails {W : Type} (git : Git W) (name path url : String)
    (auth : Option BasicAuth) (w w1 : W) (e : GoError)
    (hclone : git.PlainClone path false ⟨url, auth⟩ w = (.error e, w1))
    (he : errorsIs e .ErrRepositoryAlreadyExists = false) :
    newStackRepo git name path url auth w =
      ⟨w1, [.PlainClone path false ⟨url, auth⟩],
        .returned (none, some (fmtErrorfW ("could not clone repo " ++ name ++ ": ")
          (rewriteAuth e)))⟩ := by
  simp [newStackRepo, bind, Prog.bind, Prog.call, pure, Prog.pure, hclone, he, rewriteAuth]

theorem newStackRepo_opened {W : Type} (git : Git W) (name path url : String)
    (auth : Option BasicAuth) (w w1 w2 : W) (e : GoError) (g : Repository)
    (hclone : git.PlainClone path false ⟨url, auth⟩ w = (.error e, w1))
    (he : errorsIs e .ErrRepositoryAlreadyExists = true)
    (hopen : git.PlainOpen path w1 = (.ok g, w2)) :
    newStackRepo git name path url auth w =
      ⟨w2, [.PlainClone path false ⟨url, auth⟩, .PlainOpen path],
        .returned (some ⟨name, ⟨false⟩, url, some g, auth, path⟩, none)⟩ := by
  simp [newStackRepo, bind, Prog.bind, Prog.call, pure, Prog.pure, hclone, he, hopen]

theorem newStackRepo_open_fails {W : Type} (git : Git W) (name path url : String)
    (auth : Option BasicAuth) (w w1 w2 : W) (e e2 : GoError)
    (hclone : git.PlainClone path false ⟨url, auth⟩ w = (.error e, w1))
    (he : errorsIs e .ErrRepositoryAlreadyExists = true)
    (hopen : git.PlainOpen path w1 = (.error e2, w2)) :
    newStackRepo git name path url auth w =
      ⟨w2, [.PlainClone path false ⟨url, auth⟩, .PlainOpen path],
        .returned (none, some (fmtErrorfW ("could not open existing repo " ++ name ++ ": ")
          e2))⟩ := by
  simp [newStackRepo, bind, Prog.bind, Prog.call, pure, Prog.pure, hclone, he, hopen]

/-! ## Lemmas on message texts -/

theorem contains_refl (s : String) : Contains s s := List.infix_refl _

theorem contains_append_left {s n : String} (t : String) (h : Contains s n) :
    Contains (s ++ t) n := by
  unfold Contains at *
  rw [String.data_append]
  exact h.trans (List.infix_append' [] s.data t.data)

theorem contains_append_right {t n : String} (s : String) (h : Contains t n) :
    Contains (s ++ t) n := by
  unfold Contains at *
  rw [String.data_append]
  exact h.trans (List.suffix_append s.data t.data).isInfix

theorem rewriteAuth_of_required (e : GoError) (h : e.Error = "authentication required") :
    rewriteAuth e = fmtErrorf "authentication failed" := by
  simp [rewriteAuth, h]

/-! ## Claims on `newStackRepo` -/

/-- C5: construction is clone-or-open. When `PlainClone` fails with an error that is
`ErrRepositoryAlreadyExists`, `newStackRepo` calls `PlainOpen` on the path next; if the open
succeeds it returns a `stackRepo` with the given name, path, url and auth, an unlocked new
mutex and the opened repository, with a nil error; if the open fails it returns a nil
`stackRepo` and an error whose message contains the name. When `PlainClone` fails with any
other error, nothing is opened and the result is a nil `stackRepo` and an error whose message
contains the name. -/
theorem newStackRepo_clone_or_open {W : Type} (git : Git W) (name path url : String)
    (auth : Option BasicAuth) (w w1 : W) (e : GoError)
    (hclone : git.PlainClone path false ⟨url, auth⟩ w = (.error e, w1)) :
    (errorsIs e .ErrRepositoryAlreadyExists = true →
      (newStackRepo git name path url auth w).trace =
        [.PlainClone path false ⟨url, auth⟩, .PlainOpen path] ∧
      (∀ g w2, git.PlainOpen path w1 = (.ok g, w2) →
        (newStackRepo git name path url auth w).out =
          .returned (some { name := name, path := path, url := url, auth := auth,
                            lock := { locked := false }, gitRepoObject := some g }, none)) ∧
      (∀ e2 w2, git.PlainOpen path w1 = (.error e2, w2) →
        ∃ err, (newStackRepo git name path url auth w).out = .returned (none, some err) ∧
          Contains err.Error name)) ∧
    (errorsIs e .ErrRepositoryAlreadyExists = false →
      (newStackRepo git name path url auth w).trace = [.PlainClone path false ⟨url, auth⟩] ∧
      ∃ err, (newStackRepo git name path url auth w).out = .returned (none, some err) ∧
        Contains err.Error name) := by
  refine ⟨fun he => ⟨?_, ?_, ?_⟩, fun he => ?_⟩
  · rcases hopen : git.PlainOpen path w1 with ⟨e2 | g, w2⟩
    · rw [newStackRepo_open_fails git name path url auth w w1 w2 e e2 hclone he hopen]
    · rw [newStackRepo_opened git name path url auth w w1 w2 e g hclone he hopen]
  · intro g w2 hopen
    rw [newStackRepo_opened git name path url auth w w1 w2 e g hclone he hopen]
  · intro e2 w2 hopen
    rw [newStackRepo_open_fails git name path url auth w w1 w2 e e2 hclone he hopen]
    exact ⟨_, rfl, contains_append_left _
      (contains_append_left _ (contains_append_right _ (contains_refl name)))⟩
  · rw [newStackRepo_clone_fails git name path url auth w w1 e hclone he]
    exact ⟨rfl, _, rfl, contains_append_left _
      (contains_append_left _ (contains_append_right _ (contains_refl name)))⟩

/-- Witness for C5: the path `repos/infra` already holds a repository, so the clone fails with
`ErrRepositoryAlreadyExists`, the repository is opened and returned. -/
theorem newStackRepo_clone_or_open_witness :
    gitExisting.PlainClone "repos/infra" false ⟨"https://example.org/infra.git", none⟩ 0
        = (.error ErrRepositoryAlreadyExists, 1) ∧
      (newStackRepo gitExisting "infra" "repos/infra" "https://example.org/infra.git" none 0).out
        = .returned (some { name := "infra", path := "repos/infra",
                            url := "https://example.org/infra.git", auth := none,
                            lock := { locked := false }, gitRepoObject := some ⟨7⟩ }, none) :=
  ⟨rfl, ((newStackRepo_clone_or_open gitExisting "infra" "repos/infra"
    "https://example.org/infra.git" none 0 1 ErrRepositoryAlreadyExists rfl).1 rfl).2.1 ⟨7⟩ 2 rfl⟩

/-! ## Claims on the rewriting of rejected credentials -/

/-- C1: the rewriting of `authentication required` is the same at the three sites. Let `e` be
any error whose text is exactly `authentication required`. If `PlainClone` in `newStackRepo`
fails with `e` (not the already-exists value), if `Pull` in `pullChanges` fails with `e`, or if
`Fetch` in `fetchTag` fails with `e` (not the already-up-to-date value), then the call returns
the authentication-failure error of its site: a new error with the text
`authentication failed` (which holds `authentication failed` and not
`authentication required`) wrapped behind the context text of the site, so that the returned
message is the context followed by `authentication failed`, and the returned error is not the
wrapping of `e` itself. -/
theorem authentication_failure_rewritten {W : Type} (git : Git W) (e : GoError)
    (hmsg : e.Error = "authentication required") :
    (∀ (name path url : String) (auth : Option BasicAuth) (w w1 : W),
      git.PlainClone path false ⟨url, auth⟩ w = (.error e, w1) →
      errorsIs e .ErrRepositoryAlreadyExists = false →
      (newStackRepo git name path url auth w).out =
        .returned (none, some (authenticationFailure ("could not clone repo " ++ name ++ ": ")))) ∧
    (∀ (repo : stackRepo) (branch : String) (g : Repository) (wt : Worktree) (w w1 w2 w3 : W),
      repo.gitRepoObject = some g →
      git.Worktree g w = (.ok wt, w1) →
      git.Checkout wt ⟨"refs/remotes/origin/" ++ branch, true⟩ w1 = (none, w2) →
      git.Pull wt ⟨NewBranchReferenceName branch, "origin", repo.auth⟩ w2 = (some e, w3) →
      errorsIs e .NoErrAlreadyUpToDate = false →
      (repo.pullChanges git branch w).out =
        .returned ("", some (authenticationFailure
          ("could not pull " ++ branch ++ " branch in " ++ repo.name ++ " repo: ")))) ∧
    (∀ (repo : stackRepo) (tag : String) (g : Repository) (wt : Worktree) (w w1 w2 : W),
      repo.gitRepoObject = some g →
      git.Worktree g w = (.ok wt, w1) →
      git.Fetch g ⟨"origin", repo.auth, ["+refs/tags/" ++ tag ++ ":refs/tags/" ++ tag], true⟩ w1
        = (some e, w2) →
      errorsIs e .NoErrAlreadyUpToDate = false →
      (repo.fetchTag git tag w).out =
        .returned ("", some (authenticationFailure
          ("could not fetch tag " ++ tag ++ " in " ++ repo.name ++ " repo: ")))) ∧
    (∀ context : String,
      (authenticationFailure context).Error = context ++ "authentication failed" ∧
      Contains (authenticationFailure context).Error "authentication failed" ∧
      authenticationFailure context ≠ fmtErrorfW context e ∧
      ∃ cause, authenticationFailure context = fmtErrorfW context cause ∧
        Contains cause.Error "authentication failed" ∧
        ¬ Contains cause.Error "authentication required") := by
  refine ⟨?_, ?_, ?_, ?_⟩
  · intro name path url auth w w1 hclone he
    rw [newStackRepo_clone_fails git name path url auth w w1 e hclone he,
      rewriteAuth_of_required e hmsg]
    rfl
  · intro repo branch g wt w w1 w2 w3 hg hw hc hp he
    rw [pullChanges_pull_fails git repo branch w w1 w2 w3 g wt e hg hw hc hp he,
      rewriteAuth_of_required e hmsg]
    rfl
  · intro repo tag g wt w w1 w2 hg hw hf he
    rw [fetchTag_fetch_fails git repo tag w w1 w2 g wt e hg hw hf he,
      rewriteAuth_of_required e hmsg]
    rfl
  · intro context
    refine ⟨rfl, contains_append_right _ (contains_refl _), ?_,
      fmtErrorf "authentication failed", rfl, contains_refl _, ?_⟩
    · intro h
      have hinner : fmtErrorf "authentication failed" = e := by
        simp only [authenticationFailure, fmtErrorfW, GoError.wrapped.injEq] at h
        exact h.2
      rw [← hinner] at hmsg
      revert hmsg
      decide
    · decide

/-- Witness for C1: with the value `ErrAuthenticationRequired` of the transport at each of the
three sites, clone, pull and fetch return the authentication-failure error of the site. -/
theorem authentication_failure_rewritten_witness :
    ErrAuthenticationRequired.Error = "authentication required" ∧
      (newStackRepo gitRejecting "infra" "repos/infra" "https://example.org/infra.git" none 0).out
        = .returned (none, some (authenticationFailure "could not clone repo infra: ")) ∧
      (sampleRepo.pullChanges gitRejecting "main" 0).out
        = .returned ("", some (authenticationFailure
            "could not pull main branch in infra repo: ")) ∧
      (sampleRepo.fetchTag gitRejecting "v1.0.0" 0).out
        = .returned ("", some (authenticationFailure
            "could not fetch tag v1.0.0 in infra repo: ")) :=
  ⟨rfl,
   (authentication_failure_rewritten gitRejecting ErrAuthenticationRequired rfl).1
     "infra" "repos/infra" "https://example.org/infra.git" none 0 1 rfl rfl,
   (authentication_failure_rewritten gitRejecting ErrAuthenticationRequired rfl).2.1
     sampleRepo "main" ⟨1⟩ ⟨1⟩ 0 1 2 3 rfl rfl rfl rfl rfl,
   (authentication_failure_rewritten gitRejecting ErrAuthenticationRequired rfl).2.2.1
     sampleRepo "v1.0.0" ⟨1⟩ ⟨1⟩ 0 1 2 rfl rfl rfl rfl⟩

/-! ## Claims on the already-up-to-date result -/

theorem absorbed_of_is {e : GoError} (h : errorsIs e .NoErrAlreadyUpToDate = true) :
    absorbed (some e) := by
  intro e0 h0
  cases h0
  exact h

/-- C2: already up to date is success. In `pullChanges`, after worktree and checkout have
succeeded, a `Pull` error that is `NoErrAlreadyUpToDate` does not end the call: the HEAD read
is performed, and when it succeeds the call returns the revision and a nil error. In
`fetchTag`, after the worktree has succeeded, a `Fetch` error that is `NoErrAlreadyUpToDate`
does not end the call: the checkout is performed, and when checkout and HEAD read succeed the
call returns the revision and a nil error. Every other non-nil `Pull` or `Fetch` error makes
the call return a non-nil error. -/
theorem already_up_to_date_is_success {W : Type} (git : Git W) (repo : stackRepo)
    (g : Repository) (wt : Worktree) (w w1 : W) (e : GoError)
    (hg : repo.gitRepoObject = some g) (hw : git.Worktree g w = (.ok wt, w1)) :
    (∀ (branch : String) (w2 w3 : W),
      git.Checkout wt ⟨"refs/remotes/origin/" ++ branch, true⟩ w1 = (none, w2) →
      git.Pull wt ⟨NewBranchReferenceName branch, "origin", repo.auth⟩ w2 = (some e, w3) →
      (errorsIs e .NoErrAlreadyUpToDate = true →
        (repo.pullChanges git branch w).trace = pullChangesSteps g wt branch repo.auth ∧
        ∀ ref w4, git.Head g w3 = (.ok ref, w4) →
          (repo.pullChanges git branch w).out =
            .returned (⟨ref.Hash.String.data.take 8⟩, none)) ∧
      (errorsIs e .NoErrAlreadyUpToDate = false →
        ∃ err, (repo.pullChanges git branch w).out = .returned ("", some err))) ∧
    (∀ (tag : String) (w2 : W),
      git.Fetch g ⟨"origin", repo.auth, ["+refs/tags/" ++ tag ++ ":refs/tags/" ++ tag], true⟩ w1
        = (some e, w2) →
      (errorsIs e .NoErrAlreadyUpToDate = true →
        (fetchTagSteps g wt tag repo.auth).take 3 <+: (repo.fetchTag git tag w).trace ∧
        ∀ w3 ref w4, git.Checkout wt ⟨"refs/tags/" ++ tag, true⟩ w2 = (none, w3) →
          git.Head g w3 = (.ok ref, w4) →
          (repo.fetchTag git tag w).trace = fetchTagSteps g wt tag repo.auth ∧
          (repo.fetchTag git tag w).out =
            .returned (⟨ref.Hash.String.data.take 8⟩, none)) ∧
      (errorsIs e .NoErrAlreadyUpToDate = false →
        ∃ err, (repo.fetchTag git tag w).out = .returned ("", some err))) := by
  refine ⟨fun branch w2 w3 hc hp => ⟨fun he => ⟨?_, ?_⟩, fun he => ?_⟩,
    fun tag w2 hf => ⟨fun he => ⟨?_, ?_⟩, fun he => ?_⟩⟩
  · rcases hh : git.Head g w3 with ⟨e2 | ref, w4⟩
    · rw [pullChanges_head_fails git repo branch w w1 w2 w3 w4 g wt _ e2 hg hw hc hp
        (absorbed_of_is he) hh]
    · rw [pullChanges_succeeds git repo branch w w1 w2 w3 w4 g wt _ ref hg hw hc hp
        (absorbed_of_is he) hh]
  · intro ref w4 hh
    rw [pullChanges_succeeds git repo branch w w1 w2 w3 w4 g wt _ ref hg hw hc hp
      (absorbed_of_is he) hh]
  · rw [pullChanges_pull_fails git repo branch w w1 w2 w3 g wt e hg hw hc hp he]
    exact ⟨_, rfl⟩
  · rcases hc : git.Checkout wt ⟨"refs/tags/" ++ tag, true⟩ w2 with ⟨_ | e2, w3⟩
    swap
    · rw [fetchTag_checkout_fails git repo tag w w1 w2 w3 g wt _ e2 hg hw hf
        (absorbed_of_is he) hc]
    rcases hh : git.Head g w3 with ⟨e2 | ref, w4⟩
    · rw [fetchTag_head_fails git repo tag w w1 w2 w3 w4 g wt _ e2 hg hw hf
        (absorbed_of_is he) hc hh]
      exact List.take_prefix _ _
    · rw [fetchTag_succeeds git repo tag w w1 w2 w3 w4 g wt _ ref hg hw hf
        (absorbed_of_is he) hc hh]
      exact List.take_prefix _ _
  · intro w3 ref w4 hc hh
    rw [fetchTag_succeeds git repo tag w w1 w2 w3 w4 g wt _ ref hg hw hf
      (absorbed_of_is he) hc hh]
    exact ⟨rfl, rfl⟩
  · rw [fetchTag_fetch_fails git repo tag w w1 w2 g wt e hg hw hf he]
    exact ⟨_, rfl⟩

/-- Witness for C2: with pull and fetch both reporting `NoErrAlreadyUpToDate`, `pullChanges`
and `fetchTag` return the revision `01234567` and a nil error. -/
theorem already_up_to_date_is_success_witness :
    sampleRepo.gitRepoObject = some ⟨1⟩ ∧
      gitUpToDate.Worktree ⟨1⟩ 0 = (.ok ⟨1⟩, 1) ∧
      errorsIs NoErrAlreadyUpToDate .NoErrAlreadyUpToDate = true ∧
      (sampleRepo.pullChanges gitUpToDate "main" 0).out = .returned ("01234567", none) ∧
      (sampleRepo.fetchTag gitUpToDate "v1.0.0" 0).out = .returned ("01234567", none) :=
  ⟨rfl, rfl, rfl,
   (((already_up_to_date_is_success gitUpToDate sampleRepo ⟨1⟩ ⟨1⟩ 0 1 NoErrAlreadyUpToDate
      rfl rfl).1 "main" 2 3 rfl rfl).1 rfl).2 ⟨sampleHash⟩ 4 rfl,
   ((((already_up_to_date_is_success gitUpToDate sampleRepo ⟨1⟩ ⟨1⟩ 0 1 NoErrAlreadyUpToDate
      rfl rfl).2 "v1.0.0" 2 rfl).1 rfl).2 3 ⟨sampleHash⟩ 4 rfl rfl).2⟩

/-! ## Claims on the revision -/

/-- C3: the revision of a successful call. Whenever `pullChanges` or `fetchTag` returns a
revision with a nil error, the revision has exactly 8 characters, each of them a lowercase
hexadecimal digit, and it is the first 8 characters of the 40-character hex text of the
20-byte hash of the reference that the last step, the HEAD read, returned. The slice `[:8]` of
the hex text of a hash is always in range, and a call on a repository with a git object
never panics. -/
theorem revision_is_short_hash {W : Type} (git : Git W) (repo : stackRepo) (name : String)
    (w : W) (revision : String) :
    ((repo.pullChanges git name w).out = .returned (revision, none) →
      revision.length = 8 ∧ (∀ c ∈ revision.data, isLowerHexDigit c = true) ∧
      ∃ g w3 ref, repo.gitRepoObject = some g ∧
        git.Head g w3 = (.ok ref, (repo.pullChanges git name w).world) ∧
        ref.Hash.bytes.length = 20 ∧ ref.Hash.String.length = 40 ∧
        revision.data = ref.Hash.String.data.take 8) ∧
    ((repo.fetchTag git name w).out = .returned (revision, none) →
      revision.length = 8 ∧ (∀ c ∈ revision.data, isLowerHexDigit c = true) ∧
      ∃ g w3 ref, repo.gitRepoObject = some g ∧
        git.Head g w3 = (.ok ref, (repo.fetchTag git name w).world) ∧
        ref.Hash.bytes.length = 20 ∧ ref.Hash.String.length = 40 ∧
        revision.data = ref.Hash.String.data.take 8) ∧
    (∀ h : Hash, 8 ≤ h.String.length ∧ sliceTo h.String 8 ≠ none) ∧
    (repo.gitRepoObject ≠ none →
      (repo.pullChanges git name w).out ≠ .panicked ∧
      (repo.fetchTag git name w).out ≠ .panicked) := by
  refine ⟨?_, ?_, fun h => ⟨by rw [Hash.String_length]; omega, by simp [sliceTo_hash]⟩, ?_⟩
  rotate_left 2
  · intro hne
    cases hg : repo.gitRepoObject with
    | none => exact absurd hg hne
    | some g =>
      constructor
      · rcases pullChanges_cases git repo name w g hg with
          ⟨e, w1, _, hrun⟩ | ⟨wt, w1, e, w2, _, _, hrun⟩ | ⟨wt, w1, w2, e, w3, _, _, _, _, hrun⟩ |
          ⟨wt, w1, w2, r, w3, e, w4, _, _, _, _, _, hrun⟩ |
          ⟨wt, w1, w2, r, w3, ref, w4, _, _, _, _, _, hrun⟩ <;> rw [hrun] <;> simp
      · rcases fetchTag_cases git repo name w g hg with
          ⟨e, w1, _, hrun⟩ | ⟨wt, w1, e, w2, _, _, _, hrun⟩ |
          ⟨wt, w1, r, w2, e, w3, _, _, _, _, hrun⟩ |
          ⟨wt, w1, r, w2, w3, e, w4, _, _, _, _, _, hrun⟩ |
          ⟨wt, w1, r, w2, w3, ref, w4, _, _, _, _, _, hrun⟩ <;> rw [hrun] <;> simp
  · intro hout
    cases hg : repo.gitRepoObject with
    | none => rw [pullChanges_nil git repo name w hg] at hout; cases hout
    | some g =>
      rcases pullChanges_cases git repo name w g hg with
        ⟨e, w1, _, hrun⟩ | ⟨wt, w1, e, w2, _, _, hrun⟩ | ⟨wt, w1, w2, e, w3, _, _, _, _, hrun⟩ |
        ⟨wt, w1, w2, r, w3, e, w4, _, _, _, _, _, hrun⟩ |
        ⟨wt, w1, w2, r, w3, ref, w4, _, _, _, _, hh, hrun⟩
      · rw [hrun] at hout; cases hout
      · rw [hrun] at hout; cases hout
      · rw [hrun] at hout; cases hout
      · rw [hrun] at hout; cases hout
      · rw [hrun] at hout ⊢
        cases hout
        exact ⟨(revision_shape ref.Hash).1, (revision_shape ref.Hash).2,
          g, w3, ref, rfl, hh, ref.Hash.size, Hash.String_length _, rfl⟩
  · intro hout
    cases hg : repo.gitRepoObject with
    | none => rw [fetchTag_nil git repo name w hg] at hout; cases hout
    | some g =>
      rcases fetchTag_cases git repo name w g hg with
        ⟨e, w1, _, hrun⟩ | ⟨wt, w1, e, w2, _, _, _, hrun⟩ | ⟨wt, w1, r, w2, e, w3, _, _, _, _, hrun⟩ |
        ⟨wt, w1, r, w2, w3, e, w4, _, _, _, _, _, hrun⟩ |
        ⟨wt, w1, r, w2, w3, ref, w4, _, _, _, _, hh, hrun⟩
      · rw [hrun] at hout; cases hout
      · rw [hrun] at hout; cases hout
      · rw [hrun] at hout; cases hout
      · rw [hrun] at hout; cases hout
      · rw [hrun] at hout ⊢
        cases hout
        exact ⟨(revision_shape ref.Hash).1, (revision_shape ref.Hash).2,
          g, w3, ref, rfl, hh, ref.Hash.size, Hash.String_length _, rfl⟩

/-- Witness for C3: with HEAD at `0123456789abcdef...`, `pullChanges` and `fetchTag` succeed
with the revision `01234567`, which has 8 characters. -/
theorem revision_is_short_hash_witness :
    (sampleRepo.pullChanges gitHealthy "main" 0).out = .returned ("01234567", none) ∧
      (sampleRepo.fetchTag gitHealthy "v1.0.0" 0).out = .returned ("01234567", none) ∧
      "01234567".length = 8 ∧ (∀ c ∈ "01234567".data, isLowerHexDigit c = true) :=
  ⟨rfl, rfl,
   ((revision_is_short_hash gitHealthy sampleRepo "main" 0 "01234567").1 rfl).1,
   ((revision_is_short_hash gitHealthy sampleRepo "v1.0.0" 0 "01234567").2.1 rfl).2.1⟩

/-! ## The steps performed -/

theorem pullChanges_trace_prefix {W : Type} (git : Git W) (repo : stackRepo) (name : String)
    (w : W) : ∃ g wt, (repo.pullChanges git name w).trace <+: pullChangesSteps g wt name repo.auth := by
  cases hg : repo.gitRepoObject with
  | none =>
    rw [pullChanges_nil git repo name w hg]
    exact ⟨⟨0⟩, ⟨0⟩, List.nil_prefix⟩
  | some g =>
    rcases pullChanges_cases git repo name w g hg with
      ⟨e, w1, _, hrun⟩ | ⟨wt, w1, e, w2, _, _, hrun⟩ | ⟨wt, w1, w2, e, w3, _, _, _, _, hrun⟩ |
      ⟨wt, w1, w2, r, w3, e, w4, _, _, _, _, _, hrun⟩ |
      ⟨wt, w1, w2, r, w3, ref, w4, _, _, _, _, _, hrun⟩ <;> rw [hrun]
    · exact ⟨g, ⟨0⟩, List.take_prefix _ _⟩
    · exact ⟨g, wt, List.take_prefix _ _⟩
    · exact ⟨g, wt, List.take_prefix _ _⟩
    · exact ⟨g, wt, List.prefix_refl _⟩
    · exact ⟨g, wt, List.prefix_refl _⟩

theorem fetchTag_trace_prefix {W : Type} (git : Git W) (repo : stackRepo) (name : String)
    (w : W) : ∃ g wt, (repo.fetchTag git name w).trace <+: fetchTagSteps g wt name repo.auth := by
  cases hg : repo.gitRepoObject with
  | none =>
    rw [fetchTag_nil git repo name w hg]
    exact ⟨⟨0⟩, ⟨0⟩, List.nil_prefix⟩
  | some g =>
    rcases fetchTag_cases git repo name w g hg with
      ⟨e, w1, _, hrun⟩ | ⟨wt, w1, e, w2, _, _, _, hrun⟩ | ⟨wt, w1, r, w2, e, w3, _, _, _, _, hrun⟩ |
      ⟨wt, w1, r, w2, w3, e, w4, _, _, _, _, _, hrun⟩ |
      ⟨wt, w1, r, w2, w3, ref, w4, _, _, _, _, _, hrun⟩ <;> rw [hrun]
    · exact ⟨g, ⟨0⟩, List.take_prefix _ _⟩
    · exact ⟨g, wt, List.take_prefix _ _⟩
    · exact ⟨g, wt, List.take_prefix _ _⟩
    · exact ⟨g, wt, List.prefix_refl _⟩
    · exact ⟨g, wt, List.prefix_refl _⟩

/-! ## Claims on the order of the steps -/

/-- C10: no internal retry. The steps a call of `pullChanges` performs are an initial part of
worktree, force-checkout, pull, HEAD read, and those of `fetchTag` an initial part of
worktree, fetch, force-checkout, HEAD read, so each step is attempted at most once and in this
order. When a step fails (for pull and fetch: with an error that is not
`NoErrAlreadyUpToDate`), the failing step is the last step performed and the call returns the
empty revision with a non-nil error. -/
theorem no_retry_after_failure {W : Type} (git : Git W) (repo : stackRepo) (name : String)
    (w : W) :
    ((∃ g wt, (repo.pullChanges git name w).trace <+: pullChangesSteps g wt name repo.auth) ∧
     (∃ g wt, (repo.fetchTag git name w).trace <+: fetchTagSteps g wt name repo.auth)) ∧
    (∀ g, repo.gitRepoObject = some g →
      (∀ e w1, git.Worktree g w = (.error e, w1) →
        (repo.pullChanges git name w).trace = [.Worktree g] ∧
        (repo.fetchTag git name w).trace = [.Worktree g] ∧
        (∃ err, (repo.pullChanges git name w).out = .returned ("", some err)) ∧
        (∃ err, (repo.fetchTag git name w).out = .returned ("", some err))) ∧
      (∀ wt w1, git.Worktree g w = (.ok wt, w1) →
        (∀ e w2, git.Checkout wt ⟨"refs/remotes/origin/" ++ name, true⟩ w1 = (some e, w2) →
          (repo.pullChanges git name w).trace = (pullChangesSteps g wt name repo.auth).take 2 ∧
          ∃ err, (repo.pullChanges git name w).out = .returned ("", some err)) ∧
        (∀ w2 r w3, git.Checkout wt ⟨"refs/remotes/origin/" ++ name, true⟩ w1 = (none, w2) →
          git.Pull wt ⟨NewBranchReferenceName name, "origin", repo.auth⟩ w2 = (r, w3) →
          (∀ e, r = some e → errorsIs e .NoErrAlreadyUpToDate = false →
            (repo.pullChanges git name w).trace = (pullChangesSteps g wt name repo.auth).take 3 ∧
            ∃ err, (repo.pullChanges git name w).out = .returned ("", some err)) ∧
          (∀ e w4, absorbed r → git.Head g w3 = (.error e, w4) →
            (repo.pullChanges git name w).trace = pullChangesSteps g wt name repo.auth ∧
            ∃ err, (repo.pullChanges git name w).out = .returned ("", some err))) ∧
        (∀ r w2, git.Fetch g
            ⟨"origin", repo.auth, ["+refs/tags/" ++ name ++ ":refs/tags/" ++ name], true⟩ w1
            = (r, w2) →
          (∀ e, r = some e → errorsIs e .NoErrAlreadyUpToDate = false →
            (repo.fetchTag git name w).trace = (fetchTagSteps g wt name repo.auth).take 2 ∧
            ∃ err, (repo.fetchTag git name w).out = .returned ("", some err)) ∧
          (∀ e w3, absorbed r → git.Checkout wt ⟨"refs/tags/" ++ name, true⟩ w2 = (some e, w3) →
            (repo.fetchTag git name w).trace = (fetchTagSteps g wt name repo.auth).take 3 ∧
            ∃ err, (repo.fetchTag git name w).out = .returned ("", some err)) ∧
          (∀ w3 e w4, absorbed r → git.Checkout wt ⟨"refs/tags/" ++ name, true⟩ w2 = (none, w3) →
            git.Head g w3 = (.error e, w4) →
            (repo.fetchTag git name w).trace = fetchTagSteps g wt name repo.auth ∧
            ∃ err, (repo.fetchTag git name w).out = .returned ("", some err))))) := by
  refine ⟨⟨?_, ?_⟩, fun g hg => ⟨fun e w1 hw => ?_, fun wt w1 hw => ⟨fun e w2 hc => ?_,
    fun w2 r w3 hc hp => ⟨fun e hr he => ?_, fun e w4 hr hh => ?_⟩,
    fun r w2 hf => ⟨fun e hr he => ?_, fun e w3 hr hc => ?_, fun w3 e w4 hr hc hh => ?_⟩⟩⟩⟩
  · exact pullChanges_trace_prefix git repo name w
  · exact fetchTag_trace_prefix git repo name w
  · rw [pullChanges_worktree_fails git repo name w w1 g e hg hw,
      fetchTag_worktree_fails git repo name w w1 g e hg hw]
    exact ⟨rfl, rfl, ⟨_, rfl⟩, ⟨_, rfl⟩⟩
  · rw [pullChanges_checkout_fails git repo name w w1 w2 g wt e hg hw hc]
    exact ⟨rfl, _, rfl⟩
  · subst hr
    rw [pullChanges_pull_fails git repo name w w1 w2 w3 g wt e hg hw hc hp he]
    exact ⟨rfl, _, rfl⟩
  · rw [pullChanges_head_fails git repo name w w1 w2 w3 w4 g wt r e hg hw hc hp hr hh]
    exact ⟨rfl, _, rfl⟩
  · subst hr
    rw [fetchTag_fetch_fails git repo name w w1 w2 g wt e hg hw hf he]
    exact ⟨rfl, _, rfl⟩
  · rw [fetchTag_checkout_fails git repo name w w1 w2 w3 g wt r e hg hw hf hr hc]
    exact ⟨rfl, _, rfl⟩
  · rw [fetchTag_head_fails git repo name w w1 w2 w3 w4 g wt r e hg hw hf hr hc hh]
    exact ⟨rfl, _, rfl⟩

/-- Witness for C10: on a bare repository the worktree step fails, and both calls stop after
that single step; with rejected credentials `pullChanges` stops after the pull and does not
read HEAD. -/
theorem no_retry_after_failure_witness :
    sampleRepo.gitRepoObject = some ⟨1⟩ ∧
      gitBare.Worktree ⟨1⟩ 0 = (.error (.base "worktree not available in a bare repository" none), 1) ∧
      (sampleRepo.pullChanges gitBare "main" 0).trace = [.Worktree ⟨1⟩] ∧
      (sampleRepo.fetchTag gitBare "main" 0).trace = [.Worktree ⟨1⟩] ∧
      (sampleRepo.pullChanges gitRejecting "main" 0).trace
        = [.Worktree ⟨1⟩, .Checkout ⟨1⟩ ⟨"refs/remotes/origin/main", true⟩,
           .Pull ⟨1⟩ ⟨"refs/heads/main", "origin", none⟩] :=
  ⟨rfl, rfl,
   (((no_retry_after_failure gitBare sampleRepo "main" 0).2 ⟨1⟩ rfl).1 _ 1 rfl).1,
   (((no_retry_after_failure gitBare sampleRepo "main" 0).2 ⟨1⟩ rfl).1 _ 1 rfl).2.1,
   (((((no_retry_after_failure gitRejecting sampleRepo "main" 0).2 ⟨1⟩ rfl).2 ⟨1⟩ 1 rfl).2.1
      2 (some ErrAuthenticationRequired) 3 rfl rfl).1 ErrAuthenticationRequired rfl rfl).1⟩

/-! ## Claims on the context of the errors of `pullChanges` -/

/-- C4, as stated, fails: on a bare repository `pullChanges` on branch `main` returns the
worktree error, whose message names the repository `infra` and not the branch. -/
theorem pullChanges_worktree_error_lacks_branch :
    (sampleRepo.pullChanges gitBare "main" 0).out =
      .returned ("", some (.wrapped
        "could not get infra repo worktree: worktree not available in a bare repository"
        (.base "worktree not available in a bare repository" none))) ∧
    ¬ Contains "could not get infra repo worktree: worktree not available in a bare repository"
        "main" := by
  constructor
  · rfl
  · set_option maxRecDepth 100000 in decide

/-- C4, amended: every non-nil error `pullChanges` returns has a message that contains the
repository name. When the worktree step succeeded (so the error comes from checkout, pull or
HEAD resolution) the message contains the branch name too. When the worktree step failed, the
message is `could not get`, the repository name, `repo worktree:` and the text of the
cause. -/
theorem pullChanges_errors_carry_context {W : Type} (git : Git W) (repo : stackRepo)
    (branch : String) (w : W) (revision : String) (err : GoError)
    (hout : (repo.pullChanges git branch w).out = .returned (revision, some err)) :
    Contains err.Error repo.name ∧
    ((∃ g wt w1, repo.gitRepoObject = some g ∧ git.Worktree g w = (.ok wt, w1)) →
      Contains err.Error branch) ∧
    (∀ g e w1, repo.gitRepoObject = some g → git.Worktree g w = (.error e, w1) →
      err.Error = "could not get " ++ repo.name ++ " repo worktree: " ++ e.Error) := by
  cases hg : repo.gitRepoObject with
  | none => rw [pullChanges_nil git repo branch w hg] at hout; cases hout
  | some g =>
    rcases pullChanges_cases git repo branch w g hg with
      ⟨e, w1, hw, hrun⟩ | ⟨wt, w1, e, w2, hw, _, hrun⟩ | ⟨wt, w1, w2, e, w3, hw, _, _, _, hrun⟩ |
      ⟨wt, w1, w2, r, w3, e, w4, hw, _, _, _, _, hrun⟩ |
      ⟨wt, w1, w2, r, w3, ref, w4, hw, _, _, _, _, hrun⟩ <;> rw [hrun] at hout <;> cases hout
    · refine ⟨contains_append_left _ (contains_append_left _
        (contains_append_right _ (contains_refl _))), ?_, ?_⟩
      · rintro ⟨g2, wt, w2, hg2, hw2⟩
        cases hg2
        rw [hw] at hw2
        cases hw2
      · intro g2 e2 w2 hg2 hw2
        cases hg2
        rw [hw] at hw2
        cases hw2
        rfl
    · refine ⟨contains_append_left _ (contains_append_left _
        (contains_append_right _ (contains_refl _))), fun _ => ?_, ?_⟩
      · exact contains_append_left _ (contains_append_left _ (contains_append_left _
          (contains_append_left _ (contains_append_right _ (contains_refl _)))))
      · intro g2 e2 w2 hg2 hw2
        cases hg2
        rw [hw] at hw2
        cases hw2
    · refine ⟨contains_append_left _ (contains_append_left _
        (contains_append_right _ (contains_refl _))), fun _ => ?_, ?_⟩
      · exact contains_append_left _ (contains_append_left _ (contains_append_left _
          (contains_append_left _ (contains_append_right _ (contains_refl _)))))
      · intro g2 e2 w2 hg2 hw2
        cases hg2
        rw [hw] at hw2
        cases hw2
    · refine ⟨contains_append_left _ (contains_append_left _
        (contains_append_right _ (contains_refl _))), fun _ => ?_, ?_⟩
      · exact contains_append_left _ (contains_append_left _ (contains_append_left _
          (contains_append_left _ (contains_append_right _ (contains_refl _)))))
      · intro g2 e2 w2 hg2 hw2
        cases hg2
        rw [hw] at hw2
        cases hw2

/-- Witness for C4, amended: the remote rejects the credentials on `main`; the pull error
names both `infra` and `main`. -/
theorem pullChanges_errors_carry_context_witness :
    (sampleRepo.pullChanges gitRejecting "main" 0).out =
      .returned ("", some (authenticationFailure "could not pull main branch in infra repo: ")) ∧
    Contains (authenticationFailure "could not pull main branch in infra repo: ").Error "infra" ∧
    Contains (authenticationFailure "could not pull main branch in infra repo: ").Error "main" :=
  ⟨rfl,
   (pullChanges_errors_carry_context gitRejecting sampleRepo "main" 0 ""
     (authenticationFailure "could not pull main branch in infra repo: ") rfl).1,
   (pullChanges_errors_carry_context gitRejecting sampleRepo "main" 0 ""
     (authenticationFailure "could not pull main branch in infra repo: ") rfl).2.1
     ⟨⟨1⟩, ⟨1⟩, 1, rfl, rfl⟩⟩

/-! ## Claims on the lock -/

/-- C6, as stated, fails: with every git call succeeding, `pullChanges` on `main` and
`fetchTag` on `v1.0.0` perform their four git steps and nothing else; the first step of each
is the worktree call and not the acquisition of the lock. -/
theorem synchronize_does_not_lock_first :
    (sampleRepo.pullChanges gitHealthy "main" 0).trace
        = pullChangesSteps ⟨1⟩ ⟨1⟩ "main" none ∧
      (sampleRepo.pullChanges gitHealthy "main" 0).trace.head? ≠ some Step.Lock ∧
      (sampleRepo.fetchTag gitHealthy "v1.0.0" 0).trace
        = fetchTagSteps ⟨1⟩ ⟨1⟩ "v1.0.0" none ∧
      (sampleRepo.fetchTag gitHealthy "v1.0.0" 0).trace.head? ≠ some Step.Lock := by
  refine ⟨rfl, ?_, rfl, ?_⟩ <;> decide

/-- C6, amended: a call of `pullChanges` or `fetchTag` performs no operation on the lock of
the repository: neither `Lock` nor `Unlock` is among its steps, which are git steps only. -/
theorem synchronize_leaves_lock_alone {W : Type} (git : Git W) (repo : stackRepo)
    (name : String) (w : W) :
    Step.Lock ∉ (repo.pullChanges git name w).trace ∧
      Step.Unlock ∉ (repo.pullChanges git name w).trace ∧
      Step.Lock ∉ (repo.fetchTag git name w).trace ∧
      Step.Unlock ∉ (repo.fetchTag git name w).trace := by
  obtain ⟨g, wt, hp⟩ := pullChanges_trace_prefix git repo name w
  obtain ⟨g2, wt2, hf⟩ := fetchTag_trace_prefix git repo name w
  refine ⟨fun h => ?_, fun h => ?_, fun h => ?_, fun h => ?_⟩
  · have := hp.subset h
    simp [pullChangesSteps] at this
  · have := hp.subset h
    simp [pullChangesSteps] at this
  · have := hf.subset h
    simp [fetchTagSteps] at this
  · have := hf.subset h
    simp [fetchTagSteps] at this

/-! ## Claims on the stack reconciler -/

theorem discoverLoop_eq (dir : String) (entries : List (String × Value)) (acc : List String) :
    discoverLoop dir entries acc =
      acc ++ entries.filterMap (fun e =>
        if isExternal e.2 then none else (fileOf e.2).map (joinPath dir)) := by
  induction entries generalizing acc with
  | nil => simp [discoverLoop]
  | cons e rest ih =>
    obtain ⟨name, entry⟩ := e
    unfold discoverLoop
    by_cases hx : isExternal entry = true
    · simp [hx, ih]
    · cases hf : fileOf entry with
      | none => simp [hx, hf, ih]
      | some f => simp [hx, hf, ih]

theorem dropWhile_append_of_all {α : Type} (p : α → Bool) (l r : List α)
    (h : ∀ x ∈ l, p x = true) : (l ++ r).dropWhile p = r.dropWhile p := by
  induction l with
  | nil => rfl
  | cons x l ih =>
    have hx : p x = true := h x (List.mem_cons_self _ _)
    simp only [List.cons_append, List.dropWhile_cons, hx, if_true]
    exact ih (fun y hy => h y (List.mem_cons_of_mem _ hy))

theorem dirOf_join (dir base : String) (hbase : '/' ∉ base.data) :
    dirOf (dir ++ "/" ++ base) = dir := by
  have hall : ∀ x ∈ base.data.reverse, (fun c : Char => c != '/') x = true := by
    intro x hx
    have hx2 : x ∈ base.data := List.mem_reverse.mp hx
    have : x ≠ '/' := fun h => hbase (h ▸ hx2)
    simpa using this
  have hdata : (dir ++ "/" ++ base).data = dir.data ++ '/' :: base.data := by
    simp [String.data_append]
  unfold dirOf
  rw [hdata, List.reverse_append, List.reverse_cons, List.append_assoc,
    dropWhile_append_of_all _ _ _ hall]
  simp

/-- C7: the ref attribute. For a stack built by `newSwarmStack` with branch `b` and tag `t`,
`refAttr` is key `tag` with value `t` when `t` is not empty and key `branch` with value `b`
otherwise; so the tag wins when both are set, and the key is exactly one of `tag` and
`branch`. -/
theorem refAttr_prefers_tag (name : String) (repo : stackRepo) (b t composePath : String)
    (sopsFiles : Option (List String)) (valuesFile : String) (discover : Bool) :
    (t ≠ "" →
      (newSwarmStack name repo b t composePath sopsFiles valuesFile discover).refAttr
        = { Key := "tag", Value := t }) ∧
    (t = "" →
      (newSwarmStack name repo b t composePath sopsFiles valuesFile discover).refAttr
        = { Key := "branch", Value := b }) ∧
    (b ≠ "" → t ≠ "" →
      (newSwarmStack name repo b t composePath sopsFiles valuesFile discover).refAttr
        = { Key := "tag", Value := t }) ∧
    (((newSwarmStack name repo b t composePath sopsFiles valuesFile discover).refAttr.Key = "tag"
        ∧ (newSwarmStack name repo b t composePath sopsFiles valuesFile discover).refAttr.Key
          ≠ "branch") ∨
      ((newSwarmStack name repo b t composePath sopsFiles valuesFile discover).refAttr.Key
          = "branch"
        ∧ (newSwarmStack name repo b t composePath sopsFiles valuesFile discover).refAttr.Key
          ≠ "tag")) := by
  by_cases ht : t = ""
  · subst ht
    refine ⟨fun h => absurd rfl h, fun _ => ?_, fun _ h => absurd rfl h, Or.inr ⟨?_, ?_⟩⟩
    · simp [newSwarmStack, swarmStack.refAttr]
    · simp [newSwarmStack, swarmStack.refAttr]
    · simp [newSwarmStack, swarmStack.refAttr]
  · refine ⟨fun _ => ?_, fun h => absurd h ht, fun _ _ => ?_, Or.inl ⟨?_, ?_⟩⟩
    · simp [newSwarmStack, swarmStack.refAttr, ht]
    · simp [newSwarmStack, swarmStack.refAttr, ht]
    · simp [newSwarmStack, swarmStack.refAttr, ht]
    · simp [newSwarmStack, swarmStack.refAttr, ht]

/-- Witness for C7: the three stacks of `TestRefAttrBranch`, `TestRefAttrTag` and
`TestRefAttrPrefersTag`. -/
theorem refAttr_prefers_tag_witness :
    (newSwarmStack "test" testRepo "main" "" "docker-compose.yaml" none "" false).refAttr
        = { Key := "branch", Value := "main" } ∧
      (newSwarmStack "test" testRepo "" "v1.2.3" "docker-compose.yaml" none "" false).refAttr
        = { Key := "tag", Value := "v1.2.3" } ∧
      (newSwarmStack "test" testRepo "main" "v1.0.0" "docker-compose.yaml" none "" false).refAttr
        = { Key := "tag", Value := "v1.0.0" } :=
  ⟨(refAttr_prefers_tag "test" testRepo "main" "" "docker-compose.yaml" none "" false).2.1 rfl,
   (refAttr_prefers_tag "test" testRepo "" "v1.2.3" "docker-compose.yaml" none "" false).1
     (by decide),
   (refAttr_prefers_tag "test" testRepo "main" "v1.0.0" "docker-compose.yaml" none "" false).2.2.1
     (by decide) (by decide)⟩

/-- C8: discover-secrets. For every definition and definition path the call returns without
error, and the result lists, in declared order, the path of `file` relative to the directory
of the definition file for exactly those entries of the top-level `secrets` mapping that are
not marked external and declare `file`; without a `secrets` key the result is empty. For a
definition path `dir/base` the listed path is `dir/file`. The definition of
`TestSecretDiscovery` at `stacks/docker-compose.yaml` yields `stacks/secrets/secret.yaml`
alone, and the definition of section 8 yields `stacks/x.yaml` alone. -/
theorem discoverSecrets_lists_local_files (definition : Value) (definitionPath : String) :
    discoverSecrets definition definitionPath =
      .ok ((secretEntries definition).filterMap (fun e =>
        if isExternal e.2 then none else (fileOf e.2).map (joinPath (dirOf definitionPath)))) ∧
    (∀ paths, discoverSecrets definition definitionPath = .ok paths →
      ∀ p, p ∈ paths ↔ ∃ e ∈ secretEntries definition, isExternal e.2 = false ∧
        ∃ file, fileOf e.2 = some file ∧ p = joinPath (dirOf definitionPath) file) ∧
    (definition.field "secrets" = none → discoverSecrets definition definitionPath = .ok []) ∧
    (∀ dir base file : String, '/' ∉ base.data → dir ≠ "" →
      joinPath (dirOf (dir ++ "/" ++ base)) file = dir ++ "/" ++ file) ∧
    discoverSecrets testDefinition "stacks/docker-compose.yaml"
      = .ok ["stacks/secrets/secret.yaml"] ∧
    discoverSecrets specDefinition "stacks/docker-compose.yaml" = .ok ["stacks/x.yaml"] := by
  have hmain : discoverSecrets definition definitionPath =
      .ok ((secretEntries definition).filterMap (fun e =>
        if isExternal e.2 then none else (fileOf e.2).map (joinPath (dirOf definitionPath)))) := by
    unfold discoverSecrets secretEntries
    cases hs : definition.field "secrets" with
    | none => rfl
    | some v =>
      cases v with
      | map entries => simp [discoverLoop_eq]
      | _ => rfl
  refine ⟨hmain, ?_, ?_, ?_, rfl, rfl⟩
  · intro paths hpaths p
    rw [hmain] at hpaths
    cases hpaths
    simp only [List.mem_filterMap]
    constructor
    · rintro ⟨e, he, hp⟩
      by_cases hx : isExternal e.2 = true
      · simp [hx] at hp
      · cases hf : fileOf e.2 with
        | none => simp [hx, hf] at hp
        | some file =>
          have hx2 : isExternal e.2 = false := by simpa using hx
          simp [hx2, hf] at hp
          exact ⟨e, he, hx2, file, hf, hp.symm⟩
    · rintro ⟨e, he, hx, file, hfile, hp⟩
      exact ⟨e, he, by simp [hx, hfile, hp]⟩
  · intro hnone
    simp [discoverSecrets, hnone]
  · intro dir base file hbase hdir
    rw [dirOf_join dir base hbase]
    simp [joinPath, hdir]

/-- Witness for C8: for the definition path `stacks/docker-compose.yaml`, whose last component
has no `/`, the file `secrets/secret.yaml` is listed as `stacks/secrets/secret.yaml`. -/
theorem discoverSecrets_lists_local_files_witness :
    '/' ∉ "docker-compose.yaml".data ∧ "stacks" ≠ "" ∧
      joinPath (dirOf ("stacks" ++ "/" ++ "docker-compose.yaml")) "secrets/secret.yaml"
        = "stacks" ++ "/" ++ "secrets/secret.yaml" :=
  ⟨by decide, by decide,
   (discoverSecrets_lists_local_files testDefinition "stacks/docker-compose.yaml").2.2.2.1
     "stacks" "docker-compose.yaml" "secrets/secret.yaml" (by decide) (by decide)⟩

theorem rotatePlan_external (be : Backend) (dir kind : String) (objects : List (String × Value))
    (ops : List RotateOp) (plan : List (String × String))
    (hext : ∀ e ∈ objects, isExternal e.2 = true) :
    rotatePlan be dir kind objects ops plan = (ops, .ok plan) := by
  induction objects with
  | nil => rfl
  | cons e rest ih =>
    obtain ⟨name, entry⟩ := e
    have he : isExternal entry = true := hext (name, entry) (List.mem_cons_self _ _)
    unfold rotatePlan
    simp only [he, if_true]
    exact ih (fun x hx => hext x (List.mem_cons_of_mem _ hx))

/-- C9: external objects are left alone. For an objects mapping whose every entry is marked
`external: true`, `rotateObjects` with kind `secrets` and with kind `configs` returns no
error, performs no operation at all (no decrypt, no identity, no lookup, no create) and
returns the objects unchanged, for every stack (also one whose repository has no git object)
and every backend (also an unreachable one). -/
theorem rotateObjects_skips_external (s : swarmStack) (be : Backend)
    (objects : List (String × Value)) (hext : ∀ e ∈ objects, isExternal e.2 = true) :
    ((s.rotateObjects be objects "secrets").err = none ∧
      (s.rotateObjects be objects "secrets").ops = [] ∧
      (s.rotateObjects be objects "secrets").objects = objects) ∧
    ((s.rotateObjects be objects "configs").err = none ∧
      (s.rotateObjects be objects "configs").ops = [] ∧
      (s.rotateObjects be objects "configs").objects = objects) := by
  constructor <;>
  · unfold swarmStack.rotateObjects
    rw [rotatePlan_external be _ _ objects [] [] hext]
    exact ⟨rfl, rfl, rfl⟩

/-- Witness for C9: `TestRotateExternalObjects`, the stack of the test (its repository has no
git object) with one external object and an unreachable backend. -/
theorem rotateObjects_skips_external_witness :
    (∀ e ∈ [("my-secret", Value.map [("external", .bool true)])], isExternal e.2 = true) ∧
      testRepo.gitRepoObject = none ∧
      ((newSwarmStack "test" testRepo "main" "" "docker-compose.yaml" none "" false).rotateObjects
        unreachableBackend [("my-secret", .map [("external", .bool true)])] "secrets").err = none ∧
      ((newSwarmStack "test" testRepo "main" "" "docker-compose.yaml" none "" false).rotateObjects
        unreachableBackend [("my-secret", .map [("external", .bool true)])] "configs").ops = [] :=
  ⟨by simp [isExternal, Value.field], rfl,
   (rotateObjects_skips_external
     (newSwarmStack "test" testRepo "main" "" "docker-compose.yaml" none "" false)
     unreachableBackend [("my-secret", .map [("external", .bool true)])]
     (by simp [isExternal, Value.field])).1.1,
   (rotateObjects_skips_external
     (newSwarmStack "test" testRepo "main" "" "docker-compose.yaml" none "" false)
     unreachableBackend [("my-secret", .map [("external", .bool true)])]
     (by simp [isExternal, Value.field])).2.2.1⟩

/-- An entry that is not external is rotated: its file is decrypted, its identity computed,
the versioned object looked up and created. -/
theorem rotateObjects_rotates_local :
    ((newSwarmStack "test" testRepo "main" "" "stacks/docker-compose.yaml" none ""
        false).rotateObjects sampleBackend (secretEntries testDefinition) "secrets").ops =
      [.Decrypt "stacks/secrets/secret.yaml", .Identity "my-secret",
       .Lookup "secrets" "my-secret-d1", .Create "secrets" "my-secret-d1"] := by
  rfl

end SwarmCD
